import Mathlib

set_option maxHeartbeats 1000000

/-!
Shallow embedding of `src/google/cloud/storage/testbench/gcs_object.py`:
the GCS testbench object model (`GcsObjectVersion`, `GcsObject`), its ACL
handling, the precondition engine and the rewrite state machine.

Modelling conventions:
* Python dictionaries are association lists with unique keys (`PyDict`);
  iteration order is immaterial for every property proved below.
* Python runtime values occurring in metadata are the inductive `PyVal`;
  Python `==` on them is structural equality (`decide`-able).
* Raised exceptions are `Except PyErr`; methods that mutate `self` before a
  possible raise return their post-state next to the `Except` result, so the
  persisted-state-on-failure behaviour of the source is observable.
* Python 2 byte strings (object payloads, request bodies) are `Bytes`
  (`List Char`).
* Collaborators from `testbench_utils`, `base64`, `hashlib` and `json`
  (pure helper functions whose code is outside `src/`) are fields of `Env`;
  theorems assume of them only what the spec states (e.g. the token encoding
  is injective).
-/

/-- A Python value as it appears in the testbench's metadata dictionaries. -/
inductive PyVal where
  | none : PyVal
  | int (i : Int) : PyVal
  | str (s : String) : PyVal
  | bool (b : Bool) : PyVal
  | list (xs : List PyVal) : PyVal
  | dict (d : List (String × PyVal)) : PyVal

mutual

/-- Python `==` on values, structurally (deep on lists/dictionaries). -/
def PyVal.beq : PyVal → PyVal → Bool
  | PyVal.none, PyVal.none => true
  | PyVal.int a, PyVal.int b => a == b
  | PyVal.str a, PyVal.str b => a == b
  | PyVal.bool a, PyVal.bool b => a == b
  | PyVal.list a, PyVal.list b => pyListBeq a b
  | PyVal.dict a, PyVal.dict b => pyDictBeq a b
  | _, _ => false

/-- Elementwise Python `==` on lists of values. -/
def pyListBeq : List PyVal → List PyVal → Bool
  | [], [] => true
  | x :: xs, y :: ys => PyVal.beq x y && pyListBeq xs ys
  | _, _ => false

/-- Entrywise Python `==` on dictionaries (our dictionaries are ordered
association lists, so this is entrywise). -/
def pyDictBeq : List (String × PyVal) → List (String × PyVal) → Bool
  | [], [] => true
  | (k1, v1) :: xs, (k2, v2) :: ys => k1 == k2 && PyVal.beq v1 v2 && pyDictBeq xs ys
  | _, _ => false

end

/-- A raised Python exception: the testbench's `error_response.ErrorResponse`
(message plus HTTP status, default 400) or a built-in exception type. -/
inductive PyErr where
  | errorResponse (msg : String) (status : Nat)
  | keyError
  | valueError
  | typeError
  | attributeError
  | indexError
  | nonTermination
deriving DecidableEq, Repr

/-- Association-list lookup (Python `d.get(k)` / `d[k]`). -/
def alget {α β : Type} [DecidableEq α] : List (α × β) → α → Option β
  | [], _ => Option.none
  | (k2, v) :: rest, k => if k = k2 then some v else alget rest k

/-- Python `d.get(k, dflt)`. -/
def algetD {α β : Type} [DecidableEq α] (d : List (α × β)) (k : α) (dflt : β) : β :=
  (alget d k).getD dflt

/-- Python `d[k] = v`: replace the entry in place or append a new one. -/
def alset {α β : Type} [DecidableEq α] : List (α × β) → α → β → List (α × β)
  | [], k, v => [(k, v)]
  | (k2, v2) :: rest, k, v =>
    if k = k2 then (k2, v) :: rest else (k2, v2) :: alset rest k v

/-- Remove the first entry with the given key (helper for `alpop`). -/
def alerase {α β : Type} [DecidableEq α] : List (α × β) → α → List (α × β)
  | [], _ => []
  | (k2, v2) :: rest, k => if k = k2 then rest else (k2, v2) :: alerase rest k

/-- Python `d.pop(k, None)` made functional: the removed value and the
remaining dictionary, or `none` when the key is absent. -/
def alpop {α β : Type} [DecidableEq α] (d : List (α × β)) (k : α) :
    Option (β × List (α × β)) :=
  match alget d k with
  | Option.none => Option.none
  | some v => some (v, alerase d k)

/-- Python `d.keys()` (as a list; `set(d)` compares these as a set). -/
def alkeys {α β : Type} (d : List (α × β)) : List α := d.map Prod.fst

/-- Python `d.update(p)`: fold the updates left to right. -/
def alupdate {α β : Type} [DecidableEq α] (d : List (α × β)) (p : List (α × β)) :
    List (α × β) :=
  p.foldl (fun acc kv => alset acc kv.1 kv.2) d

/-- A Python dictionary with string keys, as the metadata mappings use. -/
abbrev PyDict := List (String × PyVal)

/-- Python 2 byte string (`str`): object payloads and request bodies. -/
abbrev Bytes := List Char

/-- Python `==` on values (the testbench compares strings, integers and
`None` with each other, where structural equality coincides with Python's). -/
def pyEq (a b : PyVal) : Bool := PyVal.beq a b

/-- Decimal digit character, as Python's `str` of a number prints it. -/
def pyDigitChar (n : Nat) : Char := Char.ofNat (48 + n)

/-- Decimal digits of a natural number, most significant first, with fuel
(structural recursion keeps the definition kernel-reducible; `n + 1` fuel
always suffices). -/
def natDigitsAux : Nat → Nat → List Char
  | 0, _ => []
  | fuel + 1, n =>
    if n < 10 then [pyDigitChar n]
    else natDigitsAux fuel (n / 10) ++ [pyDigitChar (n % 10)]

/-- Decimal digits of a natural number, most significant first. -/
def natDigits (n : Nat) : List Char := natDigitsAux (n + 1) n

/-- Python `str(n)` for a non-negative integer. -/
def pyReprNat (n : Nat) : String := String.mk (natDigits n)

/-- Python `str(i)` for an integer. -/
def pyReprInt (i : Int) : String :=
  if i < 0 then "-" ++ pyReprNat i.natAbs else pyReprNat i.natAbs

/-- Python `str(x)` where `x` is an integer or `None` (the generation slot
of a rewrite token). -/
def pyReprOptInt : Option Int → String
  | some i => pyReprInt i
  | Option.none => "None"

/-- The value of a decimal digit character, if it is one. -/
def digitVal? (c : Char) : Option Nat :=
  if 48 ≤ c.toNat then
    (if c.toNat ≤ 57 then some (c.toNat - 48) else Option.none)
  else Option.none

/-- Decimal accumulation over a digit string (`none` on a non-digit). -/
def parseNatAux : List Char → Nat → Option Nat
  | [], acc => some acc
  | c :: rest, acc =>
    match digitVal? c with
    | some d => parseNatAux rest (10 * acc + d)
    | Option.none => Option.none

/-- Python `int(s)` on a string: parse the (optionally negated) decimal
rendering or raise `ValueError`.  The request arguments the testbench
converts are plain decimal strings, which this parses exactly as Python
does. -/
def pyIntOfString (s : String) : Except PyErr Int :=
  match s.data with
  | [] => Except.error PyErr.valueError
  | '-' :: rest =>
    match rest with
    | [] => Except.error PyErr.valueError
    | _ =>
      match parseNatAux rest 0 with
      | some n => Except.ok (-(n : Int))
      | Option.none => Except.error PyErr.valueError
  | l =>
    match parseNatAux l 0 with
    | some n => Except.ok (n : Int)
    | Option.none => Except.error PyErr.valueError

/-- Python `int(x)` on a value (`None` raises `TypeError`). -/
def pyToInt : PyVal → Except PyErr Int
  | PyVal.int i => Except.ok i
  | PyVal.bool b => Except.ok (if b then 1 else 0)
  | PyVal.str s => pyIntOfString s
  | _ => Except.error PyErr.typeError

/-- Python `x + 1` where `x` came out of a metadata mapping (used for the
`metageneration` bump; a non-numeric value raises `TypeError`). -/
def pyAddOne : PyVal → Except PyErr PyVal
  | PyVal.int i => Except.ok (PyVal.int (i + 1))
  | PyVal.bool b => Except.ok (PyVal.int ((if b then 1 else 0) + 1))
  | _ => Except.error PyErr.typeError

/-- Python `'%s' % v` rendering of a metadata value inside an error message
(the exact rendering of containers is immaterial to every claim). -/
def pyToStr : PyVal → String
  | PyVal.str s => s
  | PyVal.int i => pyReprInt i
  | PyVal.bool b => if b then "True" else "False"
  | PyVal.none => "None"
  | PyVal.list _ => "[list]"
  | PyVal.dict _ => "[dict]"

/-- Index of the first occurrence of `needle` in `hay` scanning from the
head, absolute index counted from `base` (helper for `pyFind`). -/
def listFindSub : Bytes → Bytes → Nat → Option Nat
  | [], needle, base => if needle = [] then some base else Option.none
  | c :: t, needle, base =>
    if needle.isPrefixOf (c :: t) then some base else listFindSub t needle (base + 1)

/-- Python `hay.find(needle, start)`: absolute index or `-1`. -/
def pyFind (hay needle : Bytes) (start : Nat) : Int :=
  match listFindSub (hay.drop start) needle start with
  | some i => (i : Int)
  | Option.none => -1

/-- Python `s.split(sep)` for a non-empty separator, with explicit fuel
(`s.length + 1` always suffices). -/
def pySplitAux (sep : Bytes) : Nat → Bytes → List Bytes
  | 0, s => [s]
  | fuel + 1, s =>
    match listFindSub s sep 0 with
    | Option.none => [s]
    | some i => s.take i :: pySplitAux sep fuel (s.drop (i + sep.length))

/-- Python `s.split(sep)` (non-empty separator). -/
def pySplit (s sep : Bytes) : List Bytes := pySplitAux sep (s.length + 1) s

/-- Python `s.split(sep, maxsplit)`. -/
def pySplitMaxAux (sep : Bytes) : Nat → Nat → Bytes → List Bytes
  | _, 0, s => [s]
  | 0, _ + 1, s => [s]
  | fuel + 1, m + 1, s =>
    match listFindSub s sep 0 with
    | Option.none => [s]
    | some i => s.take i :: pySplitMaxAux sep fuel m (s.drop (i + sep.length))

/-- Python `s.split(sep, maxsplit)` on strings. -/
def strSplitMax (s sep : String) (m : Nat) : List String :=
  (pySplitMaxAux sep.data (s.data.length + 1) m s.data).map String.mk

/-- Python `s.split(sep)` on strings. -/
def strSplit (s sep : String) : List String :=
  (pySplit s.data sep.data).map String.mk

/-- Python slice `s[a:b]` where `a ≥ 0` and `b` may be negative
(counted from the end) — as `_parse_part` uses it. -/
def pySliceTo (s : Bytes) (a : Nat) (b : Int) : Bytes :=
  let e : Nat := if b < 0 then ((s.length : Int) + b).toNat else b.toNat
  (s.take e).drop a

/-- Python `s.encode('ascii', 'ignore')`: drop the non-ASCII characters. -/
def asciiIgnore (s : String) : String :=
  String.mk (s.data.filter (fun c => c.toNat < 128))

/-- Python `s.partition(pat)` keeping only the third component (the text
after the first occurrence of `pat`, or `''` when `pat` is absent) — the only
part `insert_multipart` uses. -/
def pyPartitionAfter (s pat : String) : String :=
  match listFindSub s.data pat.data 0 with
  | Option.none => ""
  | some i => String.mk (s.data.drop (i + pat.data.length))

/-- Lift `request.args.get(...)` / `request.headers.get(...)` results into
Python values. -/
def optStrPy : Option String → PyVal
  | some s => PyVal.str s
  | Option.none => PyVal.none

/-- An integer-or-`None` slot as a Python value. -/
def optIntPy : Option Int → PyVal
  | some i => PyVal.int i
  | Option.none => PyVal.none

/-- The parts of a `flask.Request` the object core reads: headers, query
arguments, the JSON-parsed body (`json.loads(request.data)`) and the raw
payload bytes (`testbench_utils.extract_media(request)`). -/
structure Request where
  headers : List (String × String)
  args : List (String × String)
  jsonData : PyDict
  rawMedia : Bytes

/-- Python `request.headers.get(k)`. -/
def Request.header (r : Request) (k : String) : Option String := alget r.headers k

/-- Python `request.args.get(k)`. -/
def Request.arg (r : Request) (k : String) : Option String := alget r.args k

/-- What `testbench_utils.lookup_bucket(name)` exposes to this core: the
bucket owner's entity (from the bucket metadata's `owner` field) and
`versioning_enabled()`. -/
structure BucketInfo where
  ownerEntity : Option String
  versioning : Bool

/-- The collaborator functions from `testbench_utils`, `base64`, `hashlib`
and `json` that the object core calls (their code is outside `src/`):
`md5b64 m` is `base64.b64encode(hashlib.md5(m).digest())`, `b64encode` the
token encoder, `csekValid` the key/hash/algorithm header validation,
`parseJson` is `json.loads` for the multipart resource part. -/
structure Env where
  md5b64 : Bytes → String
  corrupt_media : Bytes → Bytes
  canonical_entity_name : String → String
  lookupBucket : String → BucketInfo
  csekValid : Option String → Option String → Option String → Bool
  b64encode : String → String
  parseJson : Bytes → Except PyErr PyDict

/-- Modelled from the spec: `testbench_utils.raise_csek_error()` raises the
customer-supplied-encryption-key error (a `BadRequest`-class
`ErrorResponse`). -/
def csekError : PyErr := PyErr.errorResponse "Missing or invalid encryption key" 400

/-- One revision of a GCS object (`GcsObjectVersion`): its identity, its
immutable payload and its metadata mapping. -/
structure Revision where
  gcs_url : String
  bucket_name : String
  name : String
  generation : Int
  object_id : String
  media : Bytes
  metadata : PyDict

/-- Modelled from the spec: `testbench_utils.index_acl` builds the
unique-by-entity index of an ACL list ("at most one entry per canonical
entity per Revision (last write wins)"), keying each entry by its `entity`
field. -/
def aclEntityKey (e : PyVal) : String :=
  match e with
  | PyVal.dict d =>
    match alget d "entity" with
    | some (PyVal.str s) => s
    | _ => ""
  | _ => ""

/-- Modelled from the spec: `testbench_utils.index_acl(acl)` — the ACL list
as a dictionary keyed by entity (last write wins). -/
def index_acl (entries : List PyVal) : List (String × PyVal) :=
  entries.foldl (fun acc e => alset acc (aclEntityKey e) e) []

/-- The stored ACL list of a metadata mapping (`metadata.get('acl', [])`);
iterating a non-list raises. -/
def aclEntries (m : PyDict) : Except PyErr (List PyVal) :=
  match algetD m "acl" (PyVal.list []) with
  | PyVal.list xs => Except.ok xs
  | _ => Except.error PyErr.typeError

/-- Python `v + suffix` where `v` was read out of the metadata mapping and
must be a string (`TypeError` otherwise). -/
def pyCatStr (v : PyVal) (suffix : String) : Except PyErr String :=
  match v with
  | PyVal.str s => Except.ok (s ++ suffix)
  | _ => Except.error PyErr.typeError

/-- `GcsObjectVersion.insert_acl(entity, role)`: canonicalize, derive the
email for user entities, replace-or-insert the entry in the
unique-by-entity index, store the index values back as the ACL list, and
return the new entry. -/
def insert_acl (env : Env) (r : Revision) (entity role : String) :
    Except PyErr (Revision × PyVal) := do
  let entity := env.canonical_entity_name entity
  let email := if ("user-".data).isPrefixOf entity.data then entity else ""
  let entries ← aclEntries r.metadata
  let indexed := index_acl entries
  let idVal ← pyCatStr (algetD r.metadata "id" (PyVal.str "")) ("/" ++ entity)
  let selfLinkVal ← pyCatStr (algetD r.metadata "selfLink" PyVal.none) ("/acl/" ++ entity)
  let entry : PyVal := PyVal.dict
    [ ("bucket", PyVal.str r.bucket_name)
    , ("email", PyVal.str email)
    , ("entity", PyVal.str entity)
    , ("entity_id", PyVal.str "")
    , ("etag", algetD r.metadata "etag" (PyVal.str "XYZ="))
    , ("generation", PyVal.int r.generation)
    , ("id", PyVal.str idVal)
    , ("kind", PyVal.str "storage#objectAccessControl")
    , ("object", PyVal.str r.name)
    , ("role", PyVal.str role)
    , ("selfLink", PyVal.str selfLinkVal) ]
  let indexed := alset indexed entity entry
  let r := { r with metadata := alset r.metadata "acl" (PyVal.list (indexed.map Prod.snd)) }
  return (r, entry)

/-- The scan of `GcsObjectVersion.get_acl`: the first ACL entry whose
`entity` field equals the canonical entity. -/
def getAclLoop (entity : String) : List PyVal → Except PyErr (Option PyVal)
  | [] => Except.ok Option.none
  | e :: rest =>
    match e with
    | PyVal.dict d =>
      if pyEq (algetD d "entity" (PyVal.str "")) (PyVal.str entity) then
        Except.ok (some (PyVal.dict d))
      else getAclLoop entity rest
    | _ => Except.error PyErr.attributeError

/-- `GcsObjectVersion.get_acl(entity)`: return the entry or raise an
`ErrorResponse` ("... not found ...") with the constructor's default status
code 400. -/
def get_acl (env : Env) (r : Revision) (entity : String) : Except PyErr PyVal := do
  let entity := env.canonical_entity_name entity
  let entries ← aclEntries r.metadata
  match ← getAclLoop entity entries with
  | some a => return a
  | Option.none =>
    throw (PyErr.errorResponse
      ("Entity " ++ entity ++ " not found in object " ++ r.name) 400)

/-- `GcsObjectVersion.delete_acl(entity)`: `indexed.pop(entity)` raises a
bare `KeyError` when the entity is absent (leaving the metadata untouched);
otherwise the ACL list is stored back without the popped entry. -/
def delete_acl (env : Env) (r : Revision) (entity : String) :
    Except PyErr Revision := do
  let entity := env.canonical_entity_name entity
  let entries ← aclEntries r.metadata
  let indexed := index_acl entries
  match alpop indexed entity with
  | Option.none => throw PyErr.keyError
  | some (_, rest) =>
    return { r with metadata := alset r.metadata "acl" (PyVal.list (rest.map Prod.snd)) }

/-- `GcsObjectVersion._update_predefined_acl(predefined_acl)`: always grant
the project owners `OWNER`, then apply the named predefined policy seeded
with the bucket owner's entity; an unrecognized name is a 400. -/
def update_predefined_acl (env : Env) (r : Revision) (predefined_acl : Option String) :
    Except PyErr Revision := do
  let p := predefined_acl.getD "projectPrivate"
  let (r, _) ← insert_acl env r (env.canonical_entity_name "project-owners-123456789") "OWNER"
  let bucket := env.lookupBucket r.bucket_name
  let owner_entity := bucket.ownerEntity.getD "project-owners-123456789"
  if p = "authenticatedRead" then
    let (r, _) ← insert_acl env r "allAuthenticatedUsers" "READER"
    return r
  else if p = "bucketOwnerFullControl" then
    let (r, _) ← insert_acl env r owner_entity "OWNER"
    return r
  else if p = "bucketOwnerRead" then
    let (r, _) ← insert_acl env r owner_entity "READER"
    return r
  else if p = "private" then
    let (r, _) ← insert_acl env r "project-owners" "OWNER"
    return r
  else if p = "projectPrivate" then
    let (r, _) ← insert_acl env r (env.canonical_entity_name "project-editors-123456789") "OWNER"
    let (r, _) ← insert_acl env r (env.canonical_entity_name "project-viewers-123456789") "READER"
    return r
  else if p = "publicRead" then
    let (r, _) ← insert_acl env r (env.canonical_entity_name "allUsers") "READER"
    return r
  else
    throw (PyErr.errorResponse "Invalid predefinedAcl value" 400)

/-- `GcsObjectVersion.reset_predefined_acl`: clear the ACL list, then apply
the predefined policy. -/
def reset_predefined_acl (env : Env) (r : Revision) (predefined_acl : Option String) :
    Except PyErr Revision :=
  update_predefined_acl env
    { r with metadata := alset r.metadata "acl" (PyVal.list []) } predefined_acl

/-- `GcsObjectVersion._capture_customer_encryption(request)`: a no-op
without a key header; otherwise validate the header triple and store the
algorithm and key fingerprint. -/
def capture_customer_encryption (env : Env) (r : Revision) (req : Request) :
    Except PyErr Revision :=
  match req.header "x-goog-encryption-key" with
  | Option.none => Except.ok r
  | some _ =>
    let k := req.header "x-goog-encryption-key"
    let h := req.header "x-goog-encryption-key-sha256"
    let a := req.header "x-goog-encryption-algorithm"
    if env.csekValid k h a then
      let enc : PyVal :=
        PyVal.dict [("encryptionAlgorithm", optStrPy a), ("keySha256", optStrPy h)]
      Except.ok { r with metadata := alset r.metadata "customerEncryption" enc }
    else Except.error csekError

/-- `GcsObjectVersion.validate_encryption_for_read(request, prefix)`: an
unencrypted revision rejects any supplied key; an encrypted one requires a
valid header triple whose fingerprint matches the stored one. -/
def validate_encryption_for_read (env : Env) (r : Revision) (req : Request)
    (pfx : String) : Except PyErr Unit :=
  match algetD r.metadata "customerEncryption" PyVal.none with
  | PyVal.none =>
    match req.header (pfx ++ "-key") with
    | Option.none => Except.ok ()
    | some _ => Except.error csekError
  | PyVal.dict enc =>
    let k := req.header (pfx ++ "-key")
    let h := req.header (pfx ++ "-key-sha256")
    let a := req.header (pfx ++ "-algorithm")
    if ! env.csekValid k h a then Except.error csekError
    else if ! pyEq (algetD enc "keySha256" PyVal.none) (optStrPy h) then
      Except.error csekError
    else Except.ok ()
  | _ => Except.error PyErr.attributeError

/-- The dictionary `tmp` of `GcsObjectVersion.update_from_metadata` after
the merge, the `bucket`/`name` defaulting, and the reset of the protected
fields — everything before the `metageneration` bump. -/
def ufm_tmp (ts : String) (r : Revision) (patch : PyDict) : PyDict :=
  let tmp := alupdate r.metadata patch
  let tmp := alset tmp "bucket" (algetD tmp "bucket" (PyVal.str r.name))
  let tmp := alset tmp "name" (algetD tmp "name" (PyVal.str r.name))
  alupdate tmp
    [ ("kind", PyVal.str "storage#object")
    , ("bucket", PyVal.str r.bucket_name)
    , ("name", PyVal.str r.name)
    , ("id", PyVal.str r.object_id)
    , ("selfLink", PyVal.str (r.gcs_url ++ r.name))
    , ("projectNumber", PyVal.str "123456789")
    , ("updated", PyVal.str ts) ]

/-- The error `GcsObjectVersion._validate_hashes` raises on a mismatch. -/
def hashMismatchError (expected : String) (actual : PyVal) : PyErr :=
  PyErr.errorResponse
    ("Mismatched MD5 hash expected=" ++ expected ++ ", actual=" ++ pyToStr actual) 400

/-- `GcsObjectVersion.update_from_metadata(metadata)` followed by the
`_validate_hashes` call it ends with.  The source assigns `self.metadata =
tmp` *before* validating, so on a checksum mismatch the revision returned
next to the error already carries the merged metadata; only a failure of
the `metageneration` bump itself leaves the revision untouched.
`ts` is the freshly formatted timestamp. -/
def update_from_metadata (env : Env) (ts : String) (r : Revision) (patch : PyDict) :
    Revision × Option PyErr :=
  let tmp := ufm_tmp ts r patch
  match pyAddOne (algetD tmp "metageneration" (PyVal.int 0)) with
  | Except.error e => (r, some e)
  | Except.ok mg =>
    let tmp := alset tmp "metageneration" mg
    let r := { r with metadata := tmp }
    let actual := algetD r.metadata "md5Hash" (PyVal.str "")
    let expected := env.md5b64 r.media
    if pyEq actual (PyVal.str expected) then (r, Option.none)
    else (r, some (hashMismatchError expected actual))

/-- The XML-vs-JSON predefined-ACL name mapping of `GcsObjectVersion.__init__`. -/
def acl2json_mapping : List (String × String) :=
  [ ("authenticated-read", "authenticatedRead")
  , ("bucket-owner-full-control", "bucketOwnerFullControl")
  , ("bucket-owner-read", "bucketOwnerRead")
  , ("private", "private")
  , ("project-private", "projectPrivate")
  , ("public-read", "publicRead") ]

/-- The payload the constructor actually stores: corrupted when the test
instruction header asks for it (`x-goog-testbench-instructions:
inject-upload-data-error`), the given media otherwise. -/
def effMedia (env : Env) (req : Request) (media : Bytes) : Bytes :=
  if req.header "x-goog-testbench-instructions" = some "inject-upload-data-error" then
    env.corrupt_media media
  else media

/-- The metadata dictionary `GcsObjectVersion.__init__` builds before its
first `update_from_metadata({})` call (`media` is the payload as stored,
i.e. already corrupted when the test instruction asked for it). -/
def initialMetadata (env : Env) (ts : String) (generation : Int) (req : Request)
    (media : Bytes) : PyDict :=
  let metadata : PyDict :=
    [ ("timeCreated", PyVal.str ts)
    , ("updated", PyVal.str ts)
    , ("metageneration", PyVal.int 0)
    , ("generation", PyVal.int generation)
    , ("location", PyVal.str "US")
    , ("storageClass", PyVal.str "STANDARD")
    , ("size", PyVal.int media.length)
    , ("etag", PyVal.str "XYZ=")
    , ("owner", PyVal.dict
        [("entity", PyVal.str "project-owners-123456789"), ("entityId", PyVal.str "")])
    , ("md5Hash", PyVal.str (env.md5b64 media)) ]
  match req.header "content-type" with
  | some ct => alset metadata "contentType" (PyVal.str ct)
  | Option.none => metadata

/-- `GcsObjectVersion.__init__`: build the base metadata (with
`metageneration` 0 and the computed `md5Hash`), immediately apply
`update_from_metadata({})`, capture any customer encryption key, apply the
predefined ACL from the query arguments and then any `x-goog-acl` header.
`ts` is the formatted construction timestamp. -/
def GcsObjectVersion.init (env : Env) (ts : String) (gcs_url bucket_name name : String)
    (generation : Int) (req : Request) (media : Bytes) : Except PyErr Revision := do
  let object_id := bucket_name ++ "/o/" ++ name ++ "/" ++ pyReprInt generation
  let media := effMedia env req media
  let metadata := initialMetadata env ts generation req media
  let r : Revision :=
    { gcs_url := gcs_url, bucket_name := bucket_name, name := name
    , generation := generation, object_id := object_id, media := media
    , metadata := metadata }
  let (r, e1) := update_from_metadata env ts r []
  if let some e := e1 then throw e
  let r ← capture_customer_encryption env r req
  let r ← update_predefined_acl env r (req.arg "predefinedAcl")
  match req.header "x-goog-acl" with
  | Option.none => return r
  | some acl =>
    match alget acl2json_mapping acl with
    | some p => update_predefined_acl env r (some p)
    | Option.none =>
      throw (PyErr.errorResponse ("Invalid predefinedAcl value " ++ acl) 400)

/-- One in-flight rewrite operation (the dictionaries stored in
`GcsObject.rewrite_operations`). -/
structure RewriteOp where
  id : Int
  original_arguments : PyDict
  actual_generation : Option Int
  bytes_rewritten : Int
  body : PyDict

/-- A GCS object with its generation history and rewrite table
(`GcsObject.__init__`); `generation` starts at 0 and becomes `None` when the
last revision is deleted. -/
structure GcsObject where
  bucket_name : String
  name : String
  generation : Option Int
  revisions : List (Int × Revision)
  rewrite_token_generator : Int
  rewrite_operations : List (String × RewriteOp)

/-- A fresh `GcsObject(bucket_name, name)`. -/
def GcsObject.mkNew (bucket_name name : String) : GcsObject :=
  { bucket_name := bucket_name, name := name, generation := some 0
  , revisions := [], rewrite_token_generator := 0, rewrite_operations := [] }

/-- Python `self.revisions.get(k)` where `k` may be `None`. -/
def lookupOptKey (revs : List (Int × Revision)) : Option Int → Option Revision
  | some g => alget revs g
  | Option.none => Option.none

/-- `GcsObject.get_revision_by_generation` (the argument may be a rewrite
operation's `actual_generation`, which can be `None`). -/
def GcsObject.get_revision_by_generation (o : GcsObject) (g : Option Int) :
    Option Revision :=
  lookupOptKey o.revisions g

/-- `GcsObject.get_latest`. -/
def GcsObject.get_latest (o : GcsObject) : Option Revision :=
  lookupOptKey o.revisions o.generation

/-- Python `int(v) == self.generation` (an integer never equals `None`). -/
def pyIntEqOptInt (v : Int) : Option Int → Bool
  | some g => v == g
  | Option.none => false

/-- Python `self.generation == 0` (`None` is not `0`). -/
def genIsZero : Option Int → Bool
  | some g => g == 0
  | Option.none => false

/-- The `ErrorResponse('Precondition Failed', status_code=412)` the
precondition engine raises. -/
def preconditionFailed : PyErr := PyErr.errorResponse "Precondition Failed" 412

/-- Sequential early-raise: raise `e` when `b` holds, otherwise continue
with the rest of the checks (the shape of the source's `if ...: raise`
chains). -/
def failIf (b : Bool) (e : PyErr) (rest : Except PyErr Unit) : Except PyErr Unit :=
  if b then Except.error e else rest

/-- Whether an optional request value is present and its check fires. -/
def optFails (x : Option Int) (p : Int → Bool) : Bool :=
  match x with
  | some v => p v
  | Option.none => false

/-- `GcsObject.check_preconditions_by_value`: the precondition engine.  The
four arguments are the request-supplied optional values (the source converts
each supplied string with `int(...)` at its point of use; they are passed
here already converted). -/
def GcsObject.check_preconditions_by_value (o : GcsObject)
    (generation_match generation_not_match metageneration_match
      metageneration_not_match : Option Int) : Except PyErr Unit :=
  failIf (optFails generation_match (fun v => ! pyIntEqOptInt v o.generation))
    preconditionFailed (
  failIf (optFails generation_not_match (fun v => pyIntEqOptInt v o.generation))
    preconditionFailed (
  if genIsZero o.generation then
    failIf (metageneration_match.isSome || metageneration_not_match.isSome)
      preconditionFailed (Except.ok ())
  else
    match lookupOptKey o.revisions o.generation with
    | Option.none => Except.error (PyErr.errorResponse "Object not found" 404)
    | some current =>
      let metageneration := algetD current.metadata "metageneration" PyVal.none
      failIf (optFails metageneration_not_match (fun v => pyEq (PyVal.int v) metageneration))
        preconditionFailed (
      failIf (optFails metageneration_match (fun v => ! pyEq (PyVal.int v) metageneration))
        preconditionFailed (Except.ok ()))))

/-- Parse an optional request argument with Python `int(...)`. -/
def parseOptIntArg : Option String → Except PyErr (Option Int)
  | Option.none => Except.ok Option.none
  | some s => (pyIntOfString s).map some

/-- `GcsObject.check_preconditions(request)` with the default parameter
names (the only form the claims exercise).  The source converts each
supplied value with `int(...)` inside `check_preconditions_by_value`;
converting up front is equivalent for absent and for numeric values. -/
def GcsObject.check_preconditions (o : GcsObject) (req : Request) :
    Except PyErr Unit := do
  let gm ← parseOptIntArg (req.arg "ifGenerationMatch")
  let gnm ← parseOptIntArg (req.arg "ifGenerationNotMatch")
  let mm ← parseOptIntArg (req.arg "ifMetagenerationMatch")
  let mnm ← parseOptIntArg (req.arg "ifMetagenerationNotMatch")
  o.check_preconditions_by_value gm gnm mm mnm

/-- Python `self.generation += 1` (`None` would raise `TypeError`). -/
def pyIncGen : Option Int → Except PyErr Int
  | some g => Except.ok (g + 1)
  | Option.none => Except.error PyErr.typeError

/-- `GcsObject._insert_revision(revision)`: replace the whole mapping when
the containing bucket has versioning disabled, otherwise add the entry.
`g` is the value of `self.generation` (always an integer here: every caller
has just incremented it). -/
def GcsObject.insert_revision (env : Env) (o : GcsObject) (g : Int) (rev : Revision) :
    GcsObject :=
  if (env.lookupBucket o.bucket_name).versioning then
    { o with revisions := alset o.revisions g rev }
  else
    { o with revisions := [(g, rev)] }

/-- `revision.metadata.setdefault('metadata', dict())[k] = v` (the stored
`metadata` value is a dictionary whenever present). -/
def revSetMetaKey (r : Revision) (k : String) (v : PyVal) : Revision :=
  let inner :=
    match alget r.metadata "metadata" with
    | some (PyVal.dict d) => d
    | _ => []
  { r with metadata := alset r.metadata "metadata" (PyVal.dict (alset inner k v)) }

/-- `GcsObject.insert(gcs_url, request)`: the simple upload. -/
def GcsObject.insert (env : Env) (ts : String) (o : GcsObject) (gcs_url : String)
    (req : Request) : GcsObject × Except PyErr Revision :=
  match pyIncGen o.generation with
  | Except.error e => (o, Except.error e)
  | Except.ok g =>
    let o := { o with generation := some g }
    match GcsObjectVersion.init env ts gcs_url o.bucket_name o.name g req req.rawMedia with
    | Except.error e => (o, Except.error e)
    | Except.ok rev =>
      let rev := revSetMetaKey rev "x_testbench_upload" (PyVal.str "simple")
      (o.insert_revision env g rev, Except.ok rev)

/-- The header-scanning loop of `GcsObject._parse_part`, with fuel (the
index advances past each `\r\n`; a malformed part that would loop forever in
the source exhausts the fuel instead). -/
def parse_part_loop (part : Bytes) : Nat → Nat → List (String × String) →
    Except PyErr (List (String × String) × Bytes)
  | 0, _, _ => Except.error PyErr.nonTermination
  | fuel + 1, index, headers =>
    let next_line := pyFind part ['\r', '\n'] index
    if next_line = (index : Int) then
      Except.ok (headers, part.drop (next_line + 2).toNat)
    else
      let header_line := pySliceTo part index next_line
      match strSplitMax (String.mk header_line) ": " 2 with
      | [k, v] => parse_part_loop part fuel (next_line + 2).toNat
          (alset headers (asciiIgnore k) v)
      | _ => Except.error PyErr.valueError

/-- `GcsObject._parse_part(multipart_upload_part)`: the headers and the
payload of one part. -/
def parse_part (part : Bytes) : Except PyErr (List (String × String) × Bytes) :=
  parse_part_loop part (part.length + 2) 0 []

/-- Python `l[i]` (raises `IndexError` when out of range). -/
def pyIndex {α : Type} (l : List α) (i : Nat) : Except PyErr α :=
  match l.get? i with
  | some x => Except.ok x
  | Option.none => Except.error PyErr.indexError

/-- The decoding prefix of `GcsObject.insert_multipart` (content-type and
boundary handling, splitting the body, parsing both parts, locating and
stripping the end marker) — everything before the generation is bumped.
Yields (media payload, resource part body, media part headers). -/
def multipartDecode (req : Request) :
    Except PyErr (Bytes × Bytes × List (String × String)) := do
  let ct ←
    match req.header "content-type" with
    | Option.none =>
      throw (PyErr.errorResponse
        "Missing or invalid content-type header in multipart upload" 400)
    | some ct => pure ct
  if ! ("multipart/related".data).isPrefixOf ct.data then
    throw (PyErr.errorResponse
      "Missing or invalid content-type header in multipart upload" 400)
  let boundary := pyPartitionAfter ct "boundary="
  let marker := ("--" ++ boundary).data ++ ['\r', '\n']
  let body := req.rawMedia
  let parts := pySplit body marker
  let p1 ← pyIndex parts 1
  let (_, resource_body) ← parse_part p1
  let p2 ← pyIndex parts 2
  let (media_headers, media_body) ← parse_part p2
  let endMarker := ['\r', '\n'] ++ ("--" ++ boundary ++ "--").data ++ ['\r', '\n']
  let e := pyFind media_body endMarker 0
  if e = -1 then
    throw (PyErr.errorResponse
      ("Missing end marker (--" ++ boundary ++ "--) in media body") 400)
  return (media_body.take e.toNat, resource_body, media_headers)

/-- `GcsObject.insert_multipart(gcs_url, request)`. -/
def GcsObject.insert_multipart (env : Env) (ts : String) (o : GcsObject)
    (gcs_url : String) (req : Request) : GcsObject × Except PyErr Revision :=
  match multipartDecode req with
  | Except.error e => (o, Except.error e)
  | Except.ok (media_body, resource_body, media_headers) =>
    match pyIncGen o.generation with
    | Except.error e => (o, Except.error e)
    | Except.ok g =>
      let o := { o with generation := some g }
      match GcsObjectVersion.init env ts gcs_url o.bucket_name o.name g req media_body with
      | Except.error e => (o, Except.error e)
      | Except.ok rev =>
        match env.parseJson resource_body with
        | Except.error e => (o, Except.error e)
        | Except.ok resource =>
          let rev := revSetMetaKey rev "x_testbench_upload" (PyVal.str "multipart")
          let rev := revSetMetaKey rev "x_testbench_md5" (algetD resource "md5Hash" (PyVal.str ""))
          let (rev, e1) := update_from_metadata env ts rev resource
          match e1 with
          | some e => (o, Except.error e)
          | Option.none =>
            let second :=
              match alget media_headers "content-type" with
              | some mct => update_from_metadata env ts rev [("contentType", PyVal.str mct)]
              | Option.none => (rev, Option.none)
            match second with
            | (_, some e) => (o, Except.error e)
            | (rev, Option.none) => (o.insert_revision env g rev, Except.ok rev)

/-- The `x-goog-hash` scan of `GcsObject.insert_xml`: the value of the last
`md5=...` element of the comma-separated list, if any. -/
def xmlMd5 : Option String → Option String
  | Option.none => Option.none
  | some s =>
    (pySplit s.data [',']).foldl
      (fun acc h =>
        if ("md5=".data).isPrefixOf h then some (String.mk (h.drop 4)) else acc)
      Option.none

/-- `GcsObject.insert_xml(gcs_url, request)`: the XML-API upload; a declared
`md5=` digest is written over the computed `md5Hash` via
`update_from_metadata` (which re-validates). -/
def GcsObject.insert_xml (env : Env) (ts : String) (o : GcsObject) (gcs_url : String)
    (req : Request) : GcsObject × Except PyErr Revision :=
  match pyIncGen o.generation with
  | Except.error e => (o, Except.error e)
  | Except.ok g =>
    let o := { o with generation := some g }
    let md5hash := xmlMd5 (req.header "x-goog-hash")
    match GcsObjectVersion.init env ts gcs_url o.bucket_name o.name g req req.rawMedia with
    | Except.error e => (o, Except.error e)
    | Except.ok rev =>
      let rev := revSetMetaKey rev "x_testbench_upload" (PyVal.str "xml")
      match md5hash with
      | Option.none => (o.insert_revision env g rev, Except.ok rev)
      | some h =>
        let rev := revSetMetaKey rev "x_testbench_md5" (PyVal.str h)
        let (rev, e1) := update_from_metadata env ts rev [("md5Hash", PyVal.str h)]
        match e1 with
        | some e => (o, Except.error e)
        | Option.none => (o.insert_revision env g rev, Except.ok rev)

/-- `sorted(self.revisions.keys())[-1]`: the largest generation present
(only evaluated on a non-empty mapping). -/
def maxKey : List (Int × Revision) → Int
  | [] => 0
  | (k, _) :: rest => rest.foldl (fun m kv => max m kv.1) k

/-- `GcsObject.del_revision(request)`: pop the requested (or current)
generation; the local `generation` keeps the request argument's *string*
type, so the `generation == self.generation` comparison below it compares a
string with an integer whenever the argument was explicit. -/
def GcsObject.del_revision (o : GcsObject) (req : Request) :
    GcsObject × Except PyErr Bool :=
  let genPy : PyVal :=
    match req.arg "generation" with
    | some s => PyVal.str s
    | Option.none => optIntPy o.generation
  match pyToInt genPy with
  | Except.error e => (o, Except.error e)
  | Except.ok gi =>
    match alpop o.revisions gi with
    | Option.none => (o, Except.error PyErr.keyError)
    | some (_, rest) =>
      let o2 := { o with revisions := rest }
      if rest.isEmpty then ({ o2 with generation := Option.none }, Except.ok true)
      else if pyEq genPy (optIntPy o.generation) then
        ({ o2 with generation := some (maxKey rest) }, Except.ok false)
      else (o2, Except.ok false)

/-- `GcsObject.rewrite_fixed_args()`: the arguments that must not change
between requests for the same rewrite operation. -/
def rewrite_fixed_args : List String :=
  [ "destinationKmsKeyName", "destinationPredefinedAcl"
  , "ifGenerationMatch", "ifGenerationNotMatch"
  , "ifMetagenerationMatch", "ifMetagenerationNotMatch"
  , "ifSourceGenerationMatch", "ifSourceGenerationNotMatch"
  , "ifSourceMetagenerationMatch", "ifSourceMetagenerationNotMatch"
  , "maxBytesRewrittenPerCall", "projection", "sourceGeneration"
  , "userProject" ]

/-- `GcsObject.capture_rewrite_operation_arguments(request,
destination_bucket, destination_object)`: the fixed arguments as captured
from the current request (absent ones are captured as `None`), plus the
destination names. -/
def capture_rewrite_operation_arguments (req : Request)
    (destination_bucket destination_object : String) : PyDict :=
  alupdate (rewrite_fixed_args.map (fun a => (a, optStrPy (req.arg a))))
    [ ("destination_bucket", PyVal.str destination_bucket)
    , ("destination_object", PyVal.str destination_object) ]

/-- The string `'/'.join([str(id), bucket, object, str(generation),
str(bytes_rewritten)])` that `make_rewrite_token` base64-encodes. -/
def tokenPayload (tokenId : Int) (db dobj genRepr : String) (bytes : Int) : String :=
  pyReprInt tokenId ++ "/" ++ db ++ "/" ++ dobj ++ "/" ++ genRepr ++ "/" ++ pyReprInt bytes

/-- `GcsObject.make_rewrite_token(operation, destination_bucket,
destination_object, generation)`. -/
def make_rewrite_token (env : Env) (op : RewriteOp)
    (destination_bucket destination_object : String) (generation : Option Int) : String :=
  env.b64encode
    (tokenPayload op.id destination_bucket destination_object
      (pyReprOptInt generation) op.bytes_rewritten)

/-- `GcsObject.make_rewrite_operation(request, destination_bucket,
destination_object)`: resolve the source generation, advance the token id,
capture the fixed arguments (note the source passes `destination_object`
for both destination slots here) and build the zero-progress operation with
its initial token. -/
def GcsObject.make_rewrite_operation (env : Env) (o : GcsObject) (req : Request)
    (destination_bucket destination_object : String) :
    Except PyErr (GcsObject × String × RewriteOp) := do
  let generation : Option Int ←
    match req.arg "sourceGeneration" with
    | Option.none => pure o.generation
    | some s => (pyIntOfString s).map some
  let gid := o.rewrite_token_generator + 1
  let body := req.jsonData
  let original_arguments :=
    capture_rewrite_operation_arguments req destination_object destination_object
  let op : RewriteOp :=
    { id := gid, original_arguments := original_arguments
    , actual_generation := generation, bytes_rewritten := 0, body := body }
  let token := make_rewrite_token env op destination_bucket destination_object generation
  return ({ o with rewrite_token_generator := gid }, token, op)

/-- `GcsObject.rewrite_finish(gcs_url, request, body, source)` (invoked on
the destination object): check the destination preconditions, allocate a
generation, construct a revision from the source payload, apply the
destination metadata overrides, and install it. -/
def GcsObject.rewrite_finish (env : Env) (ts : String) (dst : GcsObject)
    (gcs_url : String) (req : Request) (body : PyDict) (source : Revision) :
    GcsObject × Except PyErr Revision :=
  match dst.check_preconditions req with
  | Except.error e => (dst, Except.error e)
  | Except.ok _ =>
    match pyIncGen dst.generation with
    | Except.error e => (dst, Except.error e)
    | Except.ok g =>
      let dst := { dst with generation := some g }
      match GcsObjectVersion.init env ts gcs_url dst.bucket_name dst.name g req source.media with
      | Except.error e => (dst, Except.error e)
      | Except.ok rev =>
        let (rev, e1) := update_from_metadata env ts rev body
        match e1 with
        | some e => (dst, Except.error e)
        | Option.none => (dst.insert_revision env g rev, Except.ok rev)

/-- Modelled from the spec: the package-level object registry behind
`testbench_utils.get_object` / `insert_object` (the "global/package-level
bucket registry lookups" of the design notes), keyed by object path. -/
structure World where
  objects : List (String × GcsObject)

/-- Modelled from the spec: the registry path of an object (mirrors the
`bucket/o/name` shape of `object_id`). -/
def object_path (bucket name : String) : String := bucket ++ "/o/" ++ name

/-- Modelled from the spec: `testbench_utils.get_object(bucket, name,
default)` returns the path and the registered object, or the default. -/
def get_object (w : World) (bucket name : String) (dflt : GcsObject) :
    String × GcsObject :=
  let p := object_path bucket name
  (p, (alget w.objects p).getD dflt)

/-- Modelled from the spec: `testbench_utils.insert_object(path, obj)`. -/
def insert_object (w : World) (path : String) (o : GcsObject) : World :=
  { objects := alset w.objects path o }

/-- Python `len(set(a) ^ set(b)) != 0` where `a` and `b` are dictionaries:
whether the two *key sets* differ. -/
def keySetDiffers (a b : List String) : Bool :=
  a.any (fun k => ! b.contains k) || b.any (fun k => ! a.contains k)

/-- `GcsObject.rewrite_step(gcs_url, request, destination_bucket,
destination_object)`: one iteration of `Objects: rewrite`.  A presented
token is popped from the table before anything else; a missing entry is 410.
The argument comparison is the source's `set(current) ^ set(original)` on
the two dictionaries, i.e. on their key sets.  Progress is a fixed 1 MiB per
call; on completion the destination object is fetched from the registry (or
freshly created), finished, and stored back, and the returned token is
empty; otherwise the operation is re-inserted under a fresh token. -/
def GcsObject.rewrite_step (env : Env) (ts : String) (o : GcsObject) (w : World)
    (gcs_url : String) (req : Request)
    (destination_bucket destination_object : String) :
    (GcsObject × World) × Except PyErr PyDict :=
  let body := req.jsonData
  let start : Except PyErr (GcsObject × String × RewriteOp) :=
    match req.arg "rewriteToken" with
    | some t =>
      if t ≠ "" then
        match alpop o.rewrite_operations t with
        | Option.none =>
          Except.error (PyErr.errorResponse "Invalid or expired token in rewrite" 410)
        | some (rw, rest) =>
          Except.ok ({ o with rewrite_operations := rest }, t, rw)
      else o.make_rewrite_operation env req destination_bucket destination_bucket
    | Option.none => o.make_rewrite_operation env req destination_bucket destination_bucket
  match start with
  | Except.error e => ((o, w), Except.error e)
  | Except.ok (o, _rewrite_token, rewrite) =>
    let current_arguments :=
      capture_rewrite_operation_arguments req destination_bucket destination_object
    if keySetDiffers (alkeys current_arguments) (alkeys rewrite.original_arguments) then
      ((o, w), Except.error (PyErr.errorResponse "Mismatched arguments to rewrite" 412))
    else
      match o.get_revision_by_generation rewrite.actual_generation with
      | Option.none => ((o, w), Except.error PyErr.attributeError)
      | some source =>
        match validate_encryption_for_read env source req "x-goog-copy-source-encryption" with
        | Except.error e => ((o, w), Except.error e)
        | Except.ok _ =>
          let bytes_rewritten := rewrite.bytes_rewritten + 1048576
          let objectSize : Int := source.media.length
          if bytes_rewritten ≥ objectSize then
            let bytes_rewritten := objectSize
            -- the source also writes the clamped count back into the popped
            -- operation dictionary, which is then discarded
            let _rewrite := { rewrite with bytes_rewritten := bytes_rewritten }
            let pd := get_object w destination_bucket destination_object
              (GcsObject.mkNew destination_bucket destination_object)
            match GcsObject.rewrite_finish env ts pd.2 gcs_url req body source with
            | (_, Except.error e) => ((o, w), Except.error e)
            | (dst, Except.ok revision) =>
              let w := insert_object w pd.1 dst
              let result : PyDict :=
                [ ("kind", PyVal.str "storage#rewriteResponse")
                , ("objectSize", PyVal.int objectSize)
                , ("done", PyVal.bool true)
                , ("resource", PyVal.dict revision.metadata)
                , ("totalBytesRewritten", PyVal.int bytes_rewritten)
                , ("rewriteToken", PyVal.str "") ]
              ((o, w), Except.ok result)
          else
            let rewrite := { rewrite with bytes_rewritten := bytes_rewritten }
            let tok2 := make_rewrite_token env rewrite destination_bucket
              destination_object (some source.generation)
            let o := { o with rewrite_operations := alset o.rewrite_operations tok2 rewrite }
            let result : PyDict :=
              [ ("kind", PyVal.str "storage#rewriteResponse")
              , ("objectSize", PyVal.int objectSize)
              , ("done", PyVal.bool false)
              , ("totalBytesRewritten", PyVal.int bytes_rewritten)
              , ("rewriteToken", PyVal.str tok2) ]
            ((o, w), Except.ok result)

/-! Concrete instances used by witnesses and counterexamples.  `envRefl` is
the transparent collaborator environment: the checksum function is constant,
canonicalization and the token encoding are the identity (which satisfies
every collaborator assumption the theorems make). -/

/-- A concrete collaborator environment for witnesses. -/
def envRefl : Env :=
  { md5b64 := fun _ => "MD5"
  , corrupt_media := id
  , canonical_entity_name := id
  , lookupBucket := fun _ => { ownerEntity := Option.none, versioning := false }
  , csekValid := fun _ _ _ => true
  , b64encode := id
  , parseJson := fun _ => Except.ok [] }

/-- A fixed request timestamp for witnesses. -/
def tsW : String := "2018-09-01T00:00:00Z"

/-- A headerless, argumentless request with a three-byte payload. -/
def plainReq : Request :=
  { headers := [], args := [], jsonData := [], rawMedia := ['a', 'b', 'c'] }

/-- A small concrete revision (its checksum matches `envRefl.md5b64`). -/
def revDummy (g : Int) : Revision :=
  { gcs_url := "u/", bucket_name := "b", name := "o", generation := g
  , object_id := "b/o/o/" ++ pyReprInt g, media := ['a', 'b', 'c']
  , metadata := [("metageneration", PyVal.int 1), ("md5Hash", PyVal.str "MD5")] }

/-- Extract the revision from a known-successful result (used to phrase
witness statements; the fallback is never reached there). -/
def revOf (e : Except PyErr Revision) : Revision :=
  match e with
  | Except.ok r => r
  | Except.error _ => revDummy 0

/-- C5 scenario: two revisions, the current generation is 2. -/
def oC5 : GcsObject :=
  { bucket_name := "b", name := "o", generation := some 2
  , revisions := [(1, revDummy 1), (2, revDummy 2)]
  , rewrite_token_generator := 0, rewrite_operations := [] }

/-- C5 scenario: delete with the explicit (string) generation "2". -/
def reqC5 : Request :=
  { headers := [], args := [("generation", "2")], jsonData := [], rawMedia := [] }

/-- C3 witness object: one revision at generation 5 with metageneration 1. -/
def oC3 : GcsObject :=
  { bucket_name := "b", name := "o", generation := some 5
  , revisions := [(5, revDummy 5)]
  , rewrite_token_generator := 0, rewrite_operations := [] }

/-- C2 counterexample patch: set `md5Hash` to a value that cannot match. -/
def patchC2 : PyDict := [("md5Hash", PyVal.str "BAD")]

/-- C9 scenario: one ACL entry for `user-a`. -/
def aclEntryA : PyVal :=
  PyVal.dict [("entity", PyVal.str "user-a"), ("role", PyVal.str "READER")]

/-- C9 scenario revision carrying exactly the `user-a` entry. -/
def revC9 : Revision :=
  { gcs_url := "u/", bucket_name := "b", name := "o", generation := 1
  , object_id := "b/o/o/1", media := ['a', 'b', 'c']
  , metadata := [("md5Hash", PyVal.str "MD5"), ("acl", PyVal.list [aclEntryA])] }

/-- C4/C6/C10 witness: the result of a concrete simple insert. -/
def insC4 : GcsObject × Except PyErr Revision :=
  GcsObject.insert envRefl tsW (GcsObject.mkNew "b" "o") "u/" plainReq

/-- C10 witness: a concrete construction. -/
def initC10 : Except PyErr Revision :=
  GcsObjectVersion.init envRefl tsW "u/" "b" "o" 1 plainReq ['a', 'b', 'c']

/-- C6: an XML insert declaring a digest that cannot match the payload. -/
def reqC6bad : Request :=
  { headers := [("x-goog-hash", "md5=BAD")], args := [], jsonData := []
  , rawMedia := ['a', 'b', 'c'] }

/-- C6 witness: an XML insert declaring the digest the payload computes. -/
def reqC6good : Request :=
  { headers := [("x-goog-hash", "md5=MD5")], args := [], jsonData := []
  , rawMedia := ['a', 'b', 'c'] }

/-- A 3 MiB payload. -/
def media3M : Bytes := List.replicate 3145728 'a'

/-- C7/C1 witness: a 3 MiB unencrypted source revision. -/
def srcRev3M : Revision :=
  { gcs_url := "u/", bucket_name := "b", name := "s", generation := 1
  , object_id := "b/o/s/1", media := media3M
  , metadata := [("md5Hash", PyVal.str "MD5")] }

/-- C7/C1 witness: the object owning the 3 MiB source revision. -/
def oSrc3M : GcsObject :=
  { bucket_name := "b", name := "s", generation := some 1
  , revisions := [(1, srcRev3M)]
  , rewrite_token_generator := 0, rewrite_operations := [] }

/-- The empty object registry. -/
def wEmpty : World := { objects := [] }

/-- A rewrite request: optionally a continuation token, plus further query
arguments. -/
def mkRewriteReq (tok : Option String) (extra : List (String × String)) : Request :=
  { headers := []
  , args :=
      (match tok with
       | some t => [("rewriteToken", t)]
       | Option.none => []) ++ extra
  , jsonData := [], rawMedia := [] }

/-- C8 witness: an in-flight operation at 1 MiB progress. -/
def opW : RewriteOp :=
  { id := 1
  , original_arguments :=
      capture_rewrite_operation_arguments (mkRewriteReq Option.none []) "b" "b"
  , actual_generation := some 1, bytes_rewritten := 1048576, body := [] }

/-- C8 witness: the (transparently encoded) token `opW` is stored under. -/
def tokW : String := make_rewrite_token envRefl opW "b" "d" (some 1)

/-- C8 witness: the source object with `opW` in its rewrite table. -/
def oC8 : GcsObject := { oSrc3M with rewrite_operations := [(tokW, opW)] }

/-- Decimal value re-read from a digit string (left inverse of `natDigits`,
used to prove the token encoding distinguishes progress counts). -/
def unDigits (l : List Char) : Nat :=
  l.foldl (fun a c => 10 * a + (c.toNat - 48)) 0

/-! ## Lemmas: association lists -/

theorem alget_alset_self {α β : Type} [DecidableEq α] (d : List (α × β)) (k : α) (v : β) :
    alget (alset d k v) k = some v := by
  induction d with
  | nil => simp [alset, alget]
  | cons hd tl ih =>
    obtain ⟨k2, v2⟩ := hd
    by_cases h : k = k2
    · subst h; simp [alset, alget]
    · simp [alset, alget, h, ih]

theorem alget_alset_ne {α β : Type} [DecidableEq α] (d : List (α × β)) (k k2 : α) (v : β)
    (h : k ≠ k2) : alget (alset d k2 v) k = alget d k := by
  induction d with
  | nil => simp [alset, alget, h]
  | cons hd tl ih =>
    obtain ⟨k3, v3⟩ := hd
    by_cases h3 : k2 = k3
    · subst h3; simp [alset, alget, h]
    · by_cases hk3 : k = k3
      · subst hk3; simp [alset, alget, h3]
      · simp [alset, alget, h3, hk3, ih]

theorem alupdate_nil {α β : Type} [DecidableEq α] (d : List (α × β)) :
    alupdate d [] = d := rfl

theorem alupdate_cons {α β : Type} [DecidableEq α] (d : List (α × β)) (kv : α × β)
    (p : List (α × β)) : alupdate d (kv :: p) = alupdate (alset d kv.1 kv.2) p := rfl

theorem alget_alupdate_not_mem {α β : Type} [DecidableEq α] (d p : List (α × β)) (k : α)
    (h : k ∉ alkeys p) : alget (alupdate d p) k = alget d k := by
  induction p generalizing d with
  | nil => rfl
  | cons hd tl ih =>
    rw [alupdate_cons]
    have h1 : k ∉ alkeys tl := by
      intro hm; exact h (by simp [alkeys] at hm ⊢; exact Or.inr hm)
    have h2 : k ≠ hd.1 := by
      intro he; exact h (by simp [alkeys, he])
    rw [ih _ h1, alget_alset_ne _ _ _ _ h2]

theorem alget_alupdate_first {α β : Type} [DecidableEq α] (d p : List (α × β)) (k : α)
    (v : β) (hnd : (alkeys p).Nodup) (h : alget p k = some v) :
    alget (alupdate d p) k = some v := by
  induction p generalizing d with
  | nil => simp [alget] at h
  | cons hd tl ih =>
    obtain ⟨k1, v1⟩ := hd
    have hnd2 : k1 ∉ alkeys tl ∧ (alkeys tl).Nodup := List.nodup_cons.mp hnd
    rw [alupdate_cons]
    by_cases hk : k = k1
    · subst hk
      have hv : v1 = v := by simpa [alget] using h
      subst hv
      rw [alget_alupdate_not_mem _ _ _ hnd2.1, alget_alset_self]
    · have h2 : alget tl k = some v := by simpa [alget, hk] using h
      exact ih _ hnd2.2 h2

theorem alkeys_alset_not_mem {α β : Type} [DecidableEq α] (d : List (α × β)) (k : α)
    (v : β) (h : k ∉ alkeys d) : alkeys (alset d k v) = alkeys d ++ [k] := by
  induction d with
  | nil => simp [alset, alkeys]
  | cons hd tl ih =>
    obtain ⟨k1, v1⟩ := hd
    have hk : k ≠ k1 := by intro he; exact h (by simp [alkeys, he])
    have htl : k ∉ alkeys tl := by
      intro hm; exact h (by simp [alkeys] at hm ⊢; exact Or.inr hm)
    rw [show alset ((k1, v1) :: tl) k v = (k1, v1) :: alset tl k v from by
      simp [alset, hk]]
    show k1 :: alkeys (alset tl k v) = (k1 :: alkeys tl) ++ [k]
    rw [ih htl]
    rfl

theorem alget_eq_none_of_not_mem {α β : Type} [DecidableEq α] (d : List (α × β)) (k : α)
    (h : k ∉ alkeys d) : alget d k = Option.none := by
  induction d with
  | nil => rfl
  | cons hd tl ih =>
    obtain ⟨k1, v1⟩ := hd
    have hk : k ≠ k1 := by intro he; exact h (by simp [alkeys, he])
    have htl : k ∉ alkeys tl := by
      intro hm; exact h (by simp [alkeys] at hm ⊢; exact Or.inr hm)
    simp [alget, hk, ih htl]

theorem alget_alerase_self_of_nodup {α β : Type} [DecidableEq α] (d : List (α × β)) (k : α)
    (h : (alkeys d).Nodup) : alget (alerase d k) k = Option.none := by
  induction d with
  | nil => rfl
  | cons hd tl ih =>
    obtain ⟨k1, v1⟩ := hd
    have hnd : k1 ∉ alkeys tl ∧ (alkeys tl).Nodup := List.nodup_cons.mp h
    by_cases hk : k = k1
    · subst hk
      simp [alerase, alget_eq_none_of_not_mem _ _ hnd.1]
    · simp [alerase, hk, alget, ih hnd.2]

/-! ## Lemmas: Python equality and the argument-key comparison -/

theorem pyEq_str (a b : String) : pyEq (PyVal.str a) (PyVal.str b) = (a == b) := by
  simp [pyEq, PyVal.beq]

theorem pyEq_int (a b : Int) : pyEq (PyVal.int a) (PyVal.int b) = (a == b) := by
  simp [pyEq, PyVal.beq]

theorem pyEq_int_str (a : Int) (b : String) :
    pyEq (PyVal.int a) (PyVal.str b) = false := by
  simp [pyEq, PyVal.beq]

theorem pyEq_str_int (a : String) (b : Int) :
    pyEq (PyVal.str a) (PyVal.int b) = false := by
  simp [pyEq, PyVal.beq]

theorem pyEq_int_none (a : Int) : pyEq (PyVal.int a) PyVal.none = false := by
  simp [pyEq, PyVal.beq]

theorem keySetDiffers_self (a : List String) : keySetDiffers a a = false := by
  have h : a.any (fun k => ! a.contains k) = false := by
    rw [List.any_eq_false]
    intro k hk
    simp [List.elem_iff, hk]
  simp [keySetDiffers, h]

theorem capture_keys (req : Request) (db dobj : String) :
    alkeys (capture_rewrite_operation_arguments req db dobj) =
      rewrite_fixed_args ++ ["destination_bucket", "destination_object"] := by
  have hbase : alkeys (rewrite_fixed_args.map (fun a => (a, optStrPy (req.arg a)))) =
      rewrite_fixed_args := by
    simp [alkeys, List.map_map]
    exact List.map_id _
  have hshape : capture_rewrite_operation_arguments req db dobj =
      alset (alset (rewrite_fixed_args.map (fun a => (a, optStrPy (req.arg a))))
        "destination_bucket" (PyVal.str db)) "destination_object" (PyVal.str dobj) := rfl
  have h1 : ("destination_bucket" : String) ∉
      alkeys (rewrite_fixed_args.map (fun a => (a, optStrPy (req.arg a)))) := by
    rw [hbase]; decide
  have h2 : ("destination_object" : String) ∉
      alkeys (alset (rewrite_fixed_args.map (fun a => (a, optStrPy (req.arg a))))
        "destination_bucket" (PyVal.str db)) := by
    rw [alkeys_alset_not_mem _ _ _ h1, hbase]; decide
  rw [hshape, alkeys_alset_not_mem _ _ _ h2, alkeys_alset_not_mem _ _ _ h1, hbase]
  simp

/-- The source's argument-drift comparison is on key sets, and both captures
always produce the same key list; so the symmetric difference is always
empty, for any pair of requests and destinations. -/
theorem capture_diff_always_empty (r1 r2 : Request) (a b c d : String) :
    keySetDiffers (alkeys (capture_rewrite_operation_arguments r1 a b))
      (alkeys (capture_rewrite_operation_arguments r2 c d)) = false := by
  rw [capture_keys, capture_keys]
  exact keySetDiffers_self _

/-! ## Lemmas: the decimal rendering inside rewrite tokens -/

theorem pyDigitChar_toNat (n : Nat) (h : n < 10) : (pyDigitChar n).toNat = 48 + n := by
  interval_cases n <;> decide

theorem pyDigitChar_ne_slash (n : Nat) (h : n < 10) : pyDigitChar n ≠ '/' := by
  interval_cases n <;> decide

theorem natDigitsAux_foldl (fuel : Nat) : ∀ n, n < fuel → ∀ a : Nat,
    (natDigitsAux fuel n).foldl (fun acc c => 10 * acc + (c.toNat - 48)) a =
      a * 10 ^ (natDigitsAux fuel n).length + n := by
  induction fuel with
  | zero => intro n hn; omega
  | succ fuel ih =>
    intro n hn a
    by_cases h10 : n < 10
    · simp [natDigitsAux, h10, pyDigitChar_toNat n h10]
      omega
    · have hrec := ih (n / 10) (by omega) a
      have hmod : n % 10 < 10 := Nat.mod_lt _ (by omega)
      simp only [natDigitsAux, if_neg h10, List.foldl_append, List.length_append,
        List.foldl_cons, List.foldl_nil, List.length_cons, List.length_nil, hrec,
        pyDigitChar_toNat (n % 10) hmod]
      rw [pow_succ]
      have hgoal : ∀ P : Nat, 10 * (a * P + n / 10) + (48 + n % 10 - 48) =
          a * (P * 10) + n := by
        intro P
        have h48 : 48 + n % 10 - 48 = n % 10 := by omega
        have hap : a * (P * 10) = 10 * (a * P) := by ring
        rw [h48, Nat.left_distrib, hap]
        generalize a * P = A
        omega
      exact hgoal _

theorem unDigits_natDigits (n : Nat) : unDigits (natDigits n) = n := by
  have h := natDigitsAux_foldl (n + 1) n (by omega) 0
  simpa [unDigits, natDigits] using h

theorem natDigits_inj {m n : Nat} (h : natDigits m = natDigits n) : m = n := by
  have hm := unDigits_natDigits m
  rw [h, unDigits_natDigits] at hm
  omega

theorem natDigitsAux_ne_slash (fuel : Nat) : ∀ n, n < fuel →
    ∀ c ∈ natDigitsAux fuel n, c ≠ '/' := by
  induction fuel with
  | zero => intro n hn; omega
  | succ fuel ih =>
    intro n hn c hc
    by_cases h10 : n < 10
    · simp [natDigitsAux, h10] at hc
      exact hc ▸ pyDigitChar_ne_slash n h10
    · simp only [natDigitsAux, if_neg h10, List.mem_append, List.mem_singleton] at hc
      rcases hc with hc | hc
      · exact ih (n / 10) (by omega) c hc
      · exact hc ▸ pyDigitChar_ne_slash (n % 10) (Nat.mod_lt _ (by omega))

theorem natDigits_ne_slash (n : Nat) : ∀ c ∈ natDigits n, c ≠ '/' :=
  natDigitsAux_ne_slash (n + 1) n (by omega)

theorem takeWhile_append_cons (p : Char → Bool) (xs : List Char) (a : Char)
    (ys : List Char) (hxs : ∀ c ∈ xs, p c = true) (ha : p a = false) :
    (xs ++ a :: ys).takeWhile p = xs := by
  induction xs with
  | nil => simp [List.takeWhile_cons, ha]
  | cons x xt ih =>
    have hx : p x = true := hxs x (by simp)
    simp only [List.cons_append, List.takeWhile_cons, hx, if_true]
    rw [ih (fun c hc => hxs c (by simp [hc]))]

theorem suffix_cancel (u1 u2 v1 v2 : List Char)
    (h1 : ∀ c ∈ v1, c ≠ '/') (h2 : ∀ c ∈ v2, c ≠ '/')
    (he : u1 ++ '/' :: v1 = u2 ++ '/' :: v2) : v1 = v2 := by
  have hr := congrArg List.reverse he
  simp only [List.reverse_append, List.reverse_cons, List.append_assoc,
    List.singleton_append] at hr
  have t1 : (v1.reverse ++ '/' :: u1.reverse).takeWhile (fun c => c != '/') =
      v1.reverse := by
    apply takeWhile_append_cons
    · intro c hc
      simpa using h1 c (List.mem_reverse.mp hc)
    · simp
  have t2 : (v2.reverse ++ '/' :: u2.reverse).takeWhile (fun c => c != '/') =
      v2.reverse := by
    apply takeWhile_append_cons
    · intro c hc
      simpa using h2 c (List.mem_reverse.mp hc)
    · simp
  rw [hr] at t1
  have hv : v1.reverse = v2.reverse := t1.symm.trans t2
  simpa using congrArg List.reverse hv

theorem tokenPayload_data (tokenId : Int) (db dobj genRepr : String) (bytes : Int) :
    (tokenPayload tokenId db dobj genRepr bytes).data =
      (pyReprInt tokenId).data ++ ['/'] ++ db.data ++ ['/'] ++ dobj.data ++ ['/'] ++
        genRepr.data ++ ['/'] ++ (pyReprInt bytes).data := by
  simp [tokenPayload, String.data_append]

theorem pyReprInt_data_nonneg (b : Int) (hb : 0 ≤ b) :
    (pyReprInt b).data = natDigits b.natAbs := by
  simp [pyReprInt, pyReprNat, not_lt.mpr hb, Int.not_lt.mpr hb]

theorem pyReprInt_ne_slash (b : Int) : ∀ c ∈ (pyReprInt b).data, c ≠ '/' := by
  intro c hc
  by_cases hb : b < 0
  · simp only [pyReprInt, if_pos hb] at hc
    rw [String.data_append] at hc
    rcases List.mem_append.mp hc with hc | hc
    · have : c = '-' := by simpa using hc
      subst this; decide
    · exact natDigits_ne_slash _ c hc
  · rw [pyReprInt_data_nonneg b (by omega)] at hc
    exact natDigits_ne_slash _ c hc

/-- Two token payloads agree only when their trailing `bytes_rewritten`
rendering agrees: the byte counts they encode are equal (for the
non-negative counts the state machine produces). -/
theorem tokenPayload_bytes_inj (id1 id2 : Int) (db1 do1 g1 db2 do2 g2 : String)
    (b1 b2 : Int) (hb1 : 0 ≤ b1) (hb2 : 0 ≤ b2)
    (h : tokenPayload id1 db1 do1 g1 b1 = tokenPayload id2 db2 do2 g2 b2) :
    b1 = b2 := by
  have hd := congrArg String.data h
  rw [tokenPayload_data, tokenPayload_data, pyReprInt_data_nonneg b1 hb1,
    pyReprInt_data_nonneg b2 hb2] at hd
  have hsuffix : natDigits b1.natAbs = natDigits b2.natAbs := by
    apply suffix_cancel
      ((pyReprInt id1).data ++ ['/'] ++ db1.data ++ ['/'] ++ do1.data ++ ['/'] ++ g1.data)
      ((pyReprInt id2).data ++ ['/'] ++ db2.data ++ ['/'] ++ do2.data ++ ['/'] ++ g2.data)
      _ _ (natDigits_ne_slash _) (natDigits_ne_slash _)
    simpa [List.append_assoc] using hd
  have := natDigits_inj hsuffix
  omega

/-- A token payload is never the empty string (it contains the four `/`
separators). -/
theorem tokenPayload_ne_empty (tokenId : Int) (db dobj genRepr : String) (bytes : Int) :
    tokenPayload tokenId db dobj genRepr bytes ≠ "" := by
  intro h
  have hd := congrArg String.data h
  rw [tokenPayload_data] at hd
  have : ('/' : Char) ∈ ([] : List Char) := by
    rw [show ("" : String).data = [] from rfl] at hd
    rw [← hd]
    simp
  simp at this

/-! ## Lemmas: the precondition engine -/

theorem failIf_ok_iff (b : Bool) (e : PyErr) (rest : Except PyErr Unit) :
    failIf b e rest = Except.ok () ↔ (b = false ∧ rest = Except.ok ()) := by
  cases b <;> simp [failIf]

/-- Claim C5: every `GcsObject` operation, in particular `del_revision`,
must preserve "whenever the revisions mapping is non-empty, the
current-generation pointer is a key of it".  At the concrete input below
(revisions at generations 1 and 2, current generation 2, request argument
`generation=2`) `del_revision` instead returns `False` and leaves the
pointer at 2 while only generation 1 remains: the source's
`generation == self.generation` comparison puts the request's *string*
against the stored *integer*, which is never equal, so the pointer is not
moved.  This proves the claimed invariant is violated by the code. -/
theorem claim_C5_theorem :
    (GcsObject.del_revision oC5 reqC5).2 = Except.ok false ∧
    (GcsObject.del_revision oC5 reqC5).1.revisions = [(1, revDummy 1)] ∧
    (GcsObject.del_revision oC5 reqC5).1.generation = some 2 ∧
    alget (GcsObject.del_revision oC5 reqC5).1.revisions 2 = Option.none :=
  ⟨rfl, rfl, rfl, rfl⟩

/-- Claim C3: for every combination of the four optional precondition values
and every object state with current generation `g` (0 meaning absent, with
any metageneration condition failing then) whose current revision, when
present, stores integer metageneration `m`, `check_preconditions_by_value`
passes if and only if every supplied condition individually passes per the
spec's §4.1 rules, an absent condition being always satisfied. -/
theorem claim_C3_theorem (o : GcsObject) (gm gnm mm mnm : Option Int) (g m : Int)
    (hg : o.generation = some g)
    (hm : g ≠ 0 → ∃ cur, lookupOptKey o.revisions (some g) = some cur ∧
      algetD cur.metadata "metageneration" PyVal.none = PyVal.int m) :
    o.check_preconditions_by_value gm gnm mm mnm = Except.ok () ↔
      ((gm = Option.none ∨ gm = some g) ∧
       gnm ≠ some g ∧
       (g = 0 → mm = Option.none ∧ mnm = Option.none) ∧
       (g ≠ 0 → (mm = Option.none ∨ mm = some m) ∧ mnm ≠ some m)) := by
  unfold GcsObject.check_preconditions_by_value
  rw [hg]
  by_cases hg0 : g = 0
  · subst hg0
    cases gm <;> cases gnm <;> cases mm <;> cases mnm <;>
      simp [optFails, pyIntEqOptInt, failIf_ok_iff, genIsZero]
  · obtain ⟨cur, hcur, hmg⟩ := hm hg0
    have hz : genIsZero (some g) = false := by
      simp [genIsZero]
      omega
    cases gm <;> cases gnm <;> cases mm <;> cases mnm <;>
      simp [optFails, pyIntEqOptInt, failIf_ok_iff, hz, hcur, hmg, pyEq_int, hg0] <;>
      omega

/-- Claim C3 witness: the theorem applied at a concrete state (generation 5,
metageneration 1) and a concrete full set of conditions. -/
theorem claim_C3_witness :
    GcsObject.check_preconditions_by_value oC3 (some 5) (some 4) (some 1) (some 2) =
        Except.ok () ↔
      ((some (5 : Int) = Option.none ∨ some (5 : Int) = some (5 : Int)) ∧
       some (4 : Int) ≠ some (5 : Int) ∧
       ((5 : Int) = 0 → some (1 : Int) = Option.none ∧ some (2 : Int) = Option.none) ∧
       ((5 : Int) ≠ 0 → (some (1 : Int) = Option.none ∨ some (1 : Int) = some (1 : Int)) ∧
          some (2 : Int) ≠ some (1 : Int))) :=
  claim_C3_theorem oC3 (some 5) (some 4) (some 1) (some 2) 5 1 rfl
    (fun _ => ⟨revDummy 5, rfl, rfl⟩)

/-! ## Lemmas: revision construction -/

theorem alset_alset_same {α β : Type} [DecidableEq α] (d : List (α × β)) (k : α) (v1 v2 : β) :
    alset (alset d k v1) k v2 = alset d k v2 := by
  induction d with
  | nil => simp [alset]
  | cons hd tl ih =>
    obtain ⟨k1, w⟩ := hd
    by_cases hk : k = k1
    · subst hk; simp [alset]
    · simp [alset, hk, ih]

theorem insert_acl_shape (env : Env) (r : Revision) (e ro : String)
    (out : Revision × PyVal) (h : insert_acl env r e ro = Except.ok out) :
    ∃ v, out.1 = { r with metadata := alset r.metadata "acl" v } := by
  unfold insert_acl at h
  simp only [bind, Except.bind] at h
  split at h
  · exact absurd h (by simp)
  · split at h
    · exact absurd h (by simp)
    · split at h
      · exact absurd h (by simp)
      · simp only [pure, Except.pure, Except.ok.injEq] at h
        subst h
        exact ⟨_, rfl⟩

theorem update_predefined_acl_shape (env : Env) (r : Revision) (p : Option String)
    (r2 : Revision) (h : update_predefined_acl env r p = Except.ok r2) :
    ∃ v, r2 = { r with metadata := alset r.metadata "acl" v } := by
  unfold update_predefined_acl at h
  simp only [bind, Except.bind, pure, Except.pure] at h
  cases h1 : insert_acl env r (env.canonical_entity_name "project-owners-123456789") "OWNER" with
  | error e => rw [h1] at h; simp at h
  | ok out1 =>
    rw [h1] at h
    obtain ⟨v1, hv1⟩ := insert_acl_shape _ _ _ _ _ h1
    obtain ⟨ra, ea⟩ := out1
    simp only at h hv1
    subst hv1
    split at h
    · split at h
      · simp at h
      · rename_i out2 heq
        obtain ⟨v2, hv2⟩ := insert_acl_shape _ _ _ _ _ heq
        obtain ⟨rb, eb⟩ := out2
        simp only at h hv2
        simp only [Except.ok.injEq] at h
        subst h
        exact ⟨v2, by rw [hv2]; simp [alset_alset_same]⟩
    · split at h
      · split at h
        · simp at h
        · rename_i out2 heq
          obtain ⟨v2, hv2⟩ := insert_acl_shape _ _ _ _ _ heq
          obtain ⟨rb, eb⟩ := out2
          simp only at h hv2
          simp only [Except.ok.injEq] at h
          subst h
          exact ⟨v2, by rw [hv2]; simp [alset_alset_same]⟩
      · split at h
        · split at h
          · simp at h
          · rename_i out2 heq
            obtain ⟨v2, hv2⟩ := insert_acl_shape _ _ _ _ _ heq
            obtain ⟨rb, eb⟩ := out2
            simp only at h hv2
            simp only [Except.ok.injEq] at h
            subst h
            exact ⟨v2, by rw [hv2]; simp [alset_alset_same]⟩
        · split at h
          · split at h
            · simp at h
            · rename_i out2 heq
              obtain ⟨v2, hv2⟩ := insert_acl_shape _ _ _ _ _ heq
              obtain ⟨rb, eb⟩ := out2
              simp only at h hv2
              simp only [Except.ok.injEq] at h
              subst h
              exact ⟨v2, by rw [hv2]; simp [alset_alset_same]⟩
          · split at h
            · split at h
              · simp at h
              · rename_i out2 heq
                obtain ⟨v2, hv2⟩ := insert_acl_shape _ _ _ _ _ heq
                obtain ⟨rb, eb⟩ := out2
                simp only at h hv2
                subst hv2
                split at h
                · simp at h
                · rename_i out3 heq3
                  obtain ⟨v3, hv3⟩ := insert_acl_shape _ _ _ _ _ heq3
                  obtain ⟨rc, ec⟩ := out3
                  simp only at h hv3
                  simp only [Except.ok.injEq] at h
                  subst h
                  exact ⟨v3, by rw [hv3]; simp [alset_alset_same]⟩
            · split at h
              · split at h
                · simp at h
                · rename_i out2 heq
                  obtain ⟨v2, hv2⟩ := insert_acl_shape _ _ _ _ _ heq
                  obtain ⟨rb, eb⟩ := out2
                  simp only at h hv2
                  simp only [Except.ok.injEq] at h
                  subst h
                  exact ⟨v2, by rw [hv2]; simp [alset_alset_same]⟩
              · simp at h

theorem capture_shape (env : Env) (r : Revision) (req : Request) (r2 : Revision)
    (h : capture_customer_encryption env r req = Except.ok r2) :
    r2 = r ∨ ∃ enc, r2 = { r with metadata := alset r.metadata "customerEncryption" enc } := by
  unfold capture_customer_encryption at h
  split at h
  · simp only [Except.ok.injEq] at h
    exact Or.inl h.symm
  · dsimp only at h
    split at h
    · simp only [Except.ok.injEq] at h
      exact Or.inr ⟨_, h.symm⟩
    · simp at h

theorem ufm_ok (env : Env) (ts : String) (r : Revision) (patch : PyDict) (mg : PyVal)
    (hmg : pyAddOne (algetD (ufm_tmp ts r patch) "metageneration" (PyVal.int 0)) =
      Except.ok mg)
    (hmd5 : pyEq (algetD (alset (ufm_tmp ts r patch) "metageneration" mg) "md5Hash"
        (PyVal.str "")) (PyVal.str (env.md5b64 r.media)) = true) :
    update_from_metadata env ts r patch =
      ({ r with metadata := alset (ufm_tmp ts r patch) "metageneration" mg },
        Option.none) := by
  unfold update_from_metadata
  dsimp only
  rw [hmg]
  simp [hmd5]

theorem ufm_err (env : Env) (ts : String) (r : Revision) (patch : PyDict) (mg : PyVal)
    (hmg : pyAddOne (algetD (ufm_tmp ts r patch) "metageneration" (PyVal.int 0)) =
      Except.ok mg)
    (hmd5 : pyEq (algetD (alset (ufm_tmp ts r patch) "metageneration" mg) "md5Hash"
        (PyVal.str "")) (PyVal.str (env.md5b64 r.media)) = false) :
    update_from_metadata env ts r patch =
      ({ r with metadata := alset (ufm_tmp ts r patch) "metageneration" mg },
        some (hashMismatchError (env.md5b64 r.media)
          (algetD (alset (ufm_tmp ts r patch) "metageneration" mg) "md5Hash"
            (PyVal.str "")))) := by
  unfold update_from_metadata
  dsimp only
  rw [hmg]
  simp [hmd5]

theorem ufm_tmp_nil_get (ts : String) (r : Revision) (k : String)
    (hk : k ∉ (["bucket", "name", "kind", "id", "selfLink", "projectNumber",
      "updated"] : List String)) :
    alget (ufm_tmp ts r []) k = alget r.metadata k := by
  have h1 : k ≠ "bucket" := by intro he; exact hk (by simp [he])
  have h2 : k ≠ "name" := by intro he; exact hk (by simp [he])
  unfold ufm_tmp
  rw [alupdate_nil]
  rw [alget_alupdate_not_mem _ _ _ (by
    intro hmem
    simp only [alkeys, List.map_cons, List.map_nil, List.mem_cons, List.not_mem_nil, or_false] at hmem
    rcases hmem with h | h | h | h | h | h | h <;> exact hk (by simp [h]))]
  rw [alget_alset_ne _ _ _ _ h2, alget_alset_ne _ _ _ _ h1]

theorem initialMetadata_metageneration (env : Env) (ts : String) (g : Int)
    (req : Request) (media : Bytes) :
    alget (initialMetadata env ts g req media) "metageneration" =
      some (PyVal.int 0) := by
  unfold initialMetadata
  cases hct : req.header "content-type" with
  | none => simp [alget]
  | some ct =>
    rw [alget_alset_ne _ _ _ _ (by decide)]
    simp [alget]

theorem initialMetadata_md5 (env : Env) (ts : String) (g : Int)
    (req : Request) (media : Bytes) :
    alget (initialMetadata env ts g req media) "md5Hash" =
      some (PyVal.str (env.md5b64 media)) := by
  unfold initialMetadata
  cases hct : req.header "content-type" with
  | none => simp [alget]
  | some ct =>
    rw [alget_alset_ne _ _ _ _ (by decide)]
    simp [alget]

theorem init_metadata_facts (env : Env) (ts gcs_url bn nm : String) (g : Int)
    (req : Request) (media : Bytes) (rev : Revision)
    (h : GcsObjectVersion.init env ts gcs_url bn nm g req media = Except.ok rev) :
    alget rev.metadata "metageneration" = some (PyVal.int 1) ∧
    alget rev.metadata "md5Hash" = some (PyVal.str (env.md5b64 (effMedia env req media))) ∧
    rev.media = effMedia env req media ∧
    rev.bucket_name = bn ∧ rev.name = nm ∧ rev.generation = g ∧
    rev.gcs_url = gcs_url := by
  unfold GcsObjectVersion.init at h
  simp only [bind, Except.bind, pure, Except.pure] at h
  set media' := effMedia env req media with hmedia
  set r0 : Revision := ⟨gcs_url, bn, nm, g, bn ++ "/o/" ++ nm ++ "/" ++ pyReprInt g, media', initialMetadata env ts g req media'⟩ with hr0
  have f0 : alget (ufm_tmp ts r0 []) "metageneration" = some (PyVal.int 0) := by
    rw [ufm_tmp_nil_get _ _ _ (by decide)]
    exact initialMetadata_metageneration env ts g req media'
  have hmg : pyAddOne (algetD (ufm_tmp ts r0 []) "metageneration" (PyVal.int 0)) =
      Except.ok (PyVal.int 1) := by
    rw [algetD, f0]; rfl
  have hM1mg : alget (alset (ufm_tmp ts r0 []) "metageneration" (PyVal.int 1))
      "metageneration" = some (PyVal.int 1) := alget_alset_self _ _ _
  have hM1md5 : alget (alset (ufm_tmp ts r0 []) "metageneration" (PyVal.int 1))
      "md5Hash" = some (PyVal.str (env.md5b64 media')) := by
    rw [alget_alset_ne _ _ _ _ (by decide), ufm_tmp_nil_get _ _ _ (by decide)]
    exact initialMetadata_md5 env ts g req media'
  have hmd5 : pyEq (algetD (alset (ufm_tmp ts r0 []) "metageneration" (PyVal.int 1))
      "md5Hash" (PyVal.str "")) (PyVal.str (env.md5b64 r0.media)) = true := by
    rw [algetD, hM1md5]
    simp only [Option.getD_some]
    rw [pyEq_str]
    exact beq_self_eq_true _
  have hufm := ufm_ok env ts r0 [] (PyVal.int 1) hmg hmd5
  rw [hufm] at h
  simp only at h
  split at h
  · simp at h
  · rename_i rc hcap
    rcases capture_shape _ _ _ _ hcap with hrc | ⟨enc, hrc⟩
    · subst hrc
      split at h
      · simp at h
      · rename_i rd hp
        obtain ⟨v, hrd⟩ := update_predefined_acl_shape _ _ _ _ hp
        subst hrd
        split at h
        · simp only [Except.ok.injEq] at h
          subst h
          refine ⟨?_, ?_, rfl, rfl, rfl, rfl, rfl⟩
          · simp [alget_alset_ne, hM1mg]
          · simp [alget_alset_ne, hM1md5]
        · split at h
          · obtain ⟨v2, hrev⟩ := update_predefined_acl_shape _ _ _ _ h
            subst hrev
            refine ⟨?_, ?_, rfl, rfl, rfl, rfl, rfl⟩
            · simp [alget_alset_ne, alset_alset_same, hM1mg]
            · simp [alget_alset_ne, alset_alset_same, hM1md5]
          · simp [throw, throwThe, MonadExceptOf.throw] at h
    · subst hrc
      split at h
      · simp at h
      · rename_i rd hp
        obtain ⟨v, hrd⟩ := update_predefined_acl_shape _ _ _ _ hp
        subst hrd
        split at h
        · simp only [Except.ok.injEq] at h
          subst h
          refine ⟨?_, ?_, rfl, rfl, rfl, rfl, rfl⟩
          · simp [alget_alset_ne, hM1mg]
          · simp [alget_alset_ne, hM1md5]
        · split at h
          · obtain ⟨v2, hrev⟩ := update_predefined_acl_shape _ _ _ _ h
            subst hrev
            refine ⟨?_, ?_, rfl, rfl, rfl, rfl, rfl⟩
            · simp [alget_alset_ne, alset_alset_same, hM1mg]
            · simp [alget_alset_ne, alset_alset_same, hM1md5]
          · simp [throw, throwThe, MonadExceptOf.throw] at h

/-- Claim C10: immediately after a successful `GcsObjectVersion`
construction (for any request and payload), the stored `metageneration`
equals 1 — the constructor initializes it to 0 and unconditionally applies
one metadata update that increments it. -/
theorem claim_C10_theorem (env : Env) (ts gcs_url bn nm : String) (g : Int)
    (req : Request) (media : Bytes) (rev : Revision)
    (h : GcsObjectVersion.init env ts gcs_url bn nm g req media = Except.ok rev) :
    alget rev.metadata "metageneration" = some (PyVal.int 1) :=
  (init_metadata_facts env ts gcs_url bn nm g req media rev h).1

/-- Claim C10 witness: a concrete construction stores metageneration 1. -/
theorem claim_C10_witness :
    alget (revOf initC10).metadata "metageneration" = some (PyVal.int 1) :=
  claim_C10_theorem envRefl tsW "u/" "b" "o" 1 plainReq (['a', 'b', 'c'] : Bytes)
    (revOf initC10) rfl

theorem ufm_tmp_get (ts : String) (r : Revision) (patch : PyDict) (k : String)
    (hk : k ∉ (["bucket", "name", "kind", "id", "selfLink", "projectNumber",
      "updated"] : List String)) :
    alget (ufm_tmp ts r patch) k = alget (alupdate r.metadata patch) k := by
  have h1 : k ≠ "bucket" := by intro he; exact hk (by simp [he])
  have h2 : k ≠ "name" := by intro he; exact hk (by simp [he])
  unfold ufm_tmp
  rw [alget_alupdate_not_mem _ _ _ (by
    intro hmem
    simp only [alkeys, List.map_cons, List.map_nil, List.mem_cons, List.not_mem_nil,
      or_false] at hmem
    rcases hmem with h | h | h | h | h | h | h <;> exact hk (by simp [h]))]
  rw [alget_alset_ne _ _ _ _ h2, alget_alset_ne _ _ _ _ h1]

/-- Claim C2, amended: a metadata patch that leaves the stored `md5Hash`
different from the recomputed checksum makes `update_from_metadata` fail
with the checksum-mismatch `ErrorResponse`, but the revision's metadata
mapping retains the merged (mismatched) values — the source assigns
`self.metadata = tmp` before `_validate_hashes()`, so the pre-call state is
not restored. -/
theorem claim_C2_theorem (env : Env) (ts : String) (r : Revision) (patch : PyDict)
    (v mg : PyVal)
    (hnd : (alkeys patch).Nodup)
    (hv : alget patch "md5Hash" = some v)
    (hne : pyEq v (PyVal.str (env.md5b64 r.media)) = false)
    (hmg : pyAddOne (algetD (ufm_tmp ts r patch) "metageneration" (PyVal.int 0)) =
      Except.ok mg) :
    (update_from_metadata env ts r patch).2 =
      some (hashMismatchError (env.md5b64 r.media) v) ∧
    alget (update_from_metadata env ts r patch).1.metadata "md5Hash" = some v := by
  have hget : alget (alset (ufm_tmp ts r patch) "metageneration" mg) "md5Hash" = some v := by
    rw [alget_alset_ne _ _ _ _ (by decide), ufm_tmp_get _ _ _ _ (by decide)]
    exact alget_alupdate_first _ _ _ _ hnd hv
  have hcond : pyEq (algetD (alset (ufm_tmp ts r patch) "metageneration" mg) "md5Hash"
      (PyVal.str "")) (PyVal.str (env.md5b64 r.media)) = false := by
    rw [algetD, hget, Option.getD_some]
    exact hne
  have herr := ufm_err env ts r patch mg hmg hcond
  rw [herr]
  constructor
  · rw [algetD, hget, Option.getD_some]
  · exact hget

/-- Claim C2 witness: the amended claim at a concrete revision (payload
checksum `MD5`) and the patch setting `md5Hash` to `BAD`. -/
theorem claim_C2_witness :
    (update_from_metadata envRefl tsW (revDummy 1) patchC2).2 =
      some (hashMismatchError "MD5" (PyVal.str "BAD")) ∧
    alget (update_from_metadata envRefl tsW (revDummy 1) patchC2).1.metadata "md5Hash" =
      some (PyVal.str "BAD") :=
  claim_C2_theorem envRefl tsW (revDummy 1) patchC2 (PyVal.str "BAD") (PyVal.int 2)
    (by simp [patchC2, alkeys]) rfl rfl rfl

/-- Claim C2 counterexample: as stated the claim requires the metadata
mapping to be left exactly in its pre-call state on a checksum mismatch; at
this concrete input the call does fail, yet the stored mapping has changed
(its `md5Hash` is the mismatched `BAD`, no longer the pre-call `MD5`). -/
theorem claim_C2_counterexample :
    (update_from_metadata envRefl tsW (revDummy 1) patchC2).2 =
      some (hashMismatchError "MD5" (PyVal.str "BAD")) ∧
    (update_from_metadata envRefl tsW (revDummy 1) patchC2).1.metadata ≠
      (revDummy 1).metadata := by
  refine ⟨rfl, ?_⟩
  intro hEq
  have hh := congrArg (fun d => alget d "md5Hash") hEq
  simp only at hh
  rw [show alget (update_from_metadata envRefl tsW (revDummy 1) patchC2).1.metadata
      "md5Hash" = some (PyVal.str "BAD") from rfl] at hh
  rw [show alget (revDummy 1).metadata "md5Hash" = some (PyVal.str "MD5") from rfl] at hh
  simp at hh

theorem revSetMetaKey_get_ne (r : Revision) (k1 : String) (v : PyVal) (k : String)
    (hk : k ≠ "metadata") :
    alget (revSetMetaKey r k1 v).metadata k = alget r.metadata k := by
  unfold revSetMetaKey
  exact alget_alset_ne _ _ _ _ hk

/-- Claim C6, amended: an `insert_xml` carrying an `x-goog-hash: md5=...`
header stores the caller-declared value over the computed checksum *via
`update_from_metadata`, which re-validates*: when the declared value equals
the computed checksum the insert succeeds and the stored `md5Hash` is the
declared value; when it differs the insert fails with the
checksum-mismatch `ErrorResponse` and no revision is installed (checksum
validation is not skipped on this path). -/
theorem claim_C6_theorem (env : Env) (ts : String) (o : GcsObject) (url : String)
    (req : Request) (hval : String) (g : Int) (rev : Revision)
    (hg : o.generation = some g)
    (hxml : xmlMd5 (req.header "x-goog-hash") = some hval)
    (hinit : GcsObjectVersion.init env ts url o.bucket_name o.name (g + 1) req
      req.rawMedia = Except.ok rev) :
    (hval = env.md5b64 (effMedia env req req.rawMedia) →
      ∃ rev2, (GcsObject.insert_xml env ts o url req).2 = Except.ok rev2 ∧
        alget rev2.metadata "md5Hash" = some (PyVal.str hval)) ∧
    (hval ≠ env.md5b64 (effMedia env req req.rawMedia) →
      (GcsObject.insert_xml env ts o url req).2 =
        Except.error (hashMismatchError (env.md5b64 (effMedia env req req.rawMedia))
          (PyVal.str hval)) ∧
      (GcsObject.insert_xml env ts o url req).1.revisions = o.revisions) := by
  obtain ⟨hmg1, hmd5v, hmedia, _, _, _, _⟩ :=
    init_metadata_facts env ts url o.bucket_name o.name (g + 1) req req.rawMedia rev hinit
  unfold GcsObject.insert_xml
  rw [hg]
  simp only [pyIncGen]
  rw [hxml]
  dsimp only
  rw [hinit]
  dsimp only
  -- the revision after the two metadata-map writes
  set rev2 := revSetMetaKey (revSetMetaKey rev "x_testbench_upload" (PyVal.str "xml"))
    "x_testbench_md5" (PyVal.str hval) with hrev2
  have hmedia2 : rev2.media = effMedia env req req.rawMedia := hmedia
  have hmg2 : alget rev2.metadata "metageneration" = some (PyVal.int 1) := by
    rw [hrev2, revSetMetaKey_get_ne _ _ _ _ (by decide),
      revSetMetaKey_get_ne _ _ _ _ (by decide)]
    exact hmg1
  have htmpmg : alget (ufm_tmp ts rev2 [("md5Hash", PyVal.str hval)]) "metageneration" =
      some (PyVal.int 1) := by
    rw [ufm_tmp_get _ _ _ _ (by decide)]
    rw [alget_alupdate_not_mem _ _ _ (by simp [alkeys])]
    exact hmg2
  have haddmg : pyAddOne (algetD (ufm_tmp ts rev2 [("md5Hash", PyVal.str hval)])
      "metageneration" (PyVal.int 0)) = Except.ok (PyVal.int 2) := by
    rw [algetD, htmpmg]; rfl
  have hgetmd5 : alget (alset (ufm_tmp ts rev2 [("md5Hash", PyVal.str hval)])
      "metageneration" (PyVal.int 2)) "md5Hash" = some (PyVal.str hval) := by
    rw [alget_alset_ne _ _ _ _ (by decide), ufm_tmp_get _ _ _ _ (by decide)]
    exact alget_alupdate_first _ _ _ _ (by simp [alkeys]) (by simp [alget])
  constructor
  · intro heq
    have hcond : pyEq (algetD (alset (ufm_tmp ts rev2 [("md5Hash", PyVal.str hval)])
        "metageneration" (PyVal.int 2)) "md5Hash" (PyVal.str ""))
        (PyVal.str (env.md5b64 rev2.media)) = true := by
      rw [algetD, hgetmd5, Option.getD_some, hmedia2, ← heq, pyEq_str]
      exact beq_self_eq_true _
    rw [ufm_ok env ts rev2 [("md5Hash", PyVal.str hval)] (PyVal.int 2) haddmg hcond]
    dsimp only
    exact ⟨_, rfl, hgetmd5⟩
  · intro hne
    have hcond : pyEq (algetD (alset (ufm_tmp ts rev2 [("md5Hash", PyVal.str hval)])
        "metageneration" (PyVal.int 2)) "md5Hash" (PyVal.str ""))
        (PyVal.str (env.md5b64 rev2.media)) = false := by
      rw [algetD, hgetmd5, Option.getD_some, hmedia2, pyEq_str]
      simp [hne]
    rw [ufm_err env ts rev2 [("md5Hash", PyVal.str hval)] (PyVal.int 2) haddmg hcond]
    dsimp only
    constructor
    · rw [algetD, hgetmd5, Option.getD_some, hmedia2]
    · rfl

/-- Claim C6 witness: the amended claim at a concrete XML insert whose
declared digest (`md5=MD5`) matches the computed checksum. -/
theorem claim_C6_witness :
    (("MD5" : String) = envRefl.md5b64 (effMedia envRefl reqC6good reqC6good.rawMedia) →
      ∃ rev2, (GcsObject.insert_xml envRefl tsW (GcsObject.mkNew "b" "o") "u/"
          reqC6good).2 = Except.ok rev2 ∧
        alget rev2.metadata "md5Hash" = some (PyVal.str "MD5")) ∧
    (("MD5" : String) ≠ envRefl.md5b64 (effMedia envRefl reqC6good reqC6good.rawMedia) →
      (GcsObject.insert_xml envRefl tsW (GcsObject.mkNew "b" "o") "u/" reqC6good).2 =
        Except.error (hashMismatchError
          (envRefl.md5b64 (effMedia envRefl reqC6good reqC6good.rawMedia))
          (PyVal.str "MD5")) ∧
      (GcsObject.insert_xml envRefl tsW (GcsObject.mkNew "b" "o") "u/"
          reqC6good).1.revisions = (GcsObject.mkNew "b" "o").revisions) :=
  claim_C6_theorem envRefl tsW (GcsObject.mkNew "b" "o") "u/" reqC6good "MD5" 0
    (revOf (GcsObjectVersion.init envRefl tsW "u/" "b" "o" 1 reqC6good
      reqC6good.rawMedia))
    rfl rfl rfl

/-- Claim C6 counterexample: as stated the claim says the insert succeeds
for any declared digest and no checksum-mismatch error is raised on this
path; at this concrete input (declared `md5=BAD`, computed checksum `MD5`)
`insert_xml` raises the checksum-mismatch `ErrorResponse` and installs no
revision. -/
theorem claim_C6_counterexample :
    (GcsObject.insert_xml envRefl tsW (GcsObject.mkNew "b" "o") "u/" reqC6bad).2 =
      Except.error (hashMismatchError "MD5" (PyVal.str "BAD")) ∧
    (GcsObject.insert_xml envRefl tsW (GcsObject.mkNew "b" "o") "u/"
        reqC6bad).1.revisions = [] :=
  ⟨rfl, rfl⟩

/-! ## Lemmas: the ACL index -/

theorem alset_append_of_not_mem {α β : Type} [DecidableEq α] (acc : List (α × β))
    (k : α) (v : β) (h : k ∉ alkeys acc) : alset acc k v = acc ++ [(k, v)] := by
  induction acc with
  | nil => rfl
  | cons hd tl ih =>
    obtain ⟨k1, v1⟩ := hd
    have hk : k ≠ k1 := by intro he; exact h (by simp [alkeys, he])
    have htl : k ∉ alkeys tl := by
      intro hm; exact h (by simp [alkeys] at hm ⊢; exact Or.inr hm)
    simp [alset, hk, ih htl]

theorem mem_alkeys_alset {α β : Type} [DecidableEq α] (d : List (α × β)) (k k2 : α)
    (v : β) (h : k2 ∈ alkeys (alset d k v)) : k2 = k ∨ k2 ∈ alkeys d := by
  induction d with
  | nil => simpa [alset, alkeys] using h
  | cons hd tl ih =>
    obtain ⟨k1, v1⟩ := hd
    by_cases hk : k = k1
    · subst hk
      simpa [alset, alkeys] using h
    · simp only [alset, if_neg hk] at h
      rcases (by simpa [alkeys] using h : k2 = k1 ∨ k2 ∈ alkeys (alset tl k v)) with
        h1 | h1
      · exact Or.inr (by simp [alkeys, h1])
      · rcases ih h1 with h2 | h2
        · exact Or.inl h2
        · exact Or.inr (by simp [alkeys]; exact Or.inr (by simpa [alkeys] using h2))

theorem index_acl_aux_eq_map (entries : List PyVal) :
    ∀ acc : List (String × PyVal),
      (alkeys acc ++ entries.map aclEntityKey).Nodup →
      entries.foldl (fun a e => alset a (aclEntityKey e) e) acc =
        acc ++ entries.map (fun e => (aclEntityKey e, e)) := by
  induction entries with
  | nil => intro acc _; simp
  | cons e tl ih =>
    intro acc hnd
    have hkey : aclEntityKey e ∉ alkeys acc := by
      intro hm
      have := (List.nodup_append.mp hnd).2.2
      exact this hm (by simp)
    have hstep : alset acc (aclEntityKey e) e = acc ++ [(aclEntityKey e, e)] :=
      alset_append_of_not_mem _ _ _ hkey
    have hnd2 : (alkeys (acc ++ [(aclEntityKey e, e)]) ++ tl.map aclEntityKey).Nodup := by
      have : alkeys (acc ++ [(aclEntityKey e, e)]) = alkeys acc ++ [aclEntityKey e] := by
        simp [alkeys]
      rw [this]
      have hperm : alkeys acc ++ [aclEntityKey e] ++ tl.map aclEntityKey =
          alkeys acc ++ (aclEntityKey e :: tl.map aclEntityKey) := by simp
      rw [hperm]
      simpa using hnd
    simp only [List.foldl_cons, hstep]
    rw [ih _ hnd2]
    simp

theorem index_acl_eq_map (entries : List PyVal)
    (hnd : (entries.map aclEntityKey).Nodup) :
    index_acl entries = entries.map (fun e => (aclEntityKey e, e)) := by
  have := index_acl_aux_eq_map entries [] (by simpa [alkeys] using hnd)
  simpa [index_acl] using this

theorem alkeys_index_acl_sub (entries : List PyVal) (k : String)
    (h : k ∈ alkeys (index_acl entries)) : k ∈ entries.map aclEntityKey := by
  suffices haux : ∀ acc : List (String × PyVal),
      k ∈ alkeys (entries.foldl (fun a e => alset a (aclEntityKey e) e) acc) →
      k ∈ alkeys acc ∨ k ∈ entries.map aclEntityKey by
    rcases haux [] h with h1 | h1
    · simp [alkeys] at h1
    · exact h1
  clear h
  induction entries with
  | nil => intro acc hm; exact Or.inl hm
  | cons e tl ih =>
    intro acc hm
    simp only [List.foldl_cons] at hm
    rcases ih (alset acc (aclEntityKey e) e) hm with h1 | h1
    · rcases mem_alkeys_alset _ _ _ _ h1 with h2 | h2
      · exact Or.inr (by simp [h2])
      · exact Or.inl h2
    · exact Or.inr (by simp; exact Or.inr (by simpa using h1))

theorem alget_append_found {α β : Type} [DecidableEq α] (l1 : List (α × β)) (k : α)
    (v : β) (l2 : List (α × β)) (h : k ∉ alkeys l1) :
    alget (l1 ++ (k, v) :: l2) k = some v := by
  induction l1 with
  | nil => simp [alget]
  | cons hd tl ih =>
    obtain ⟨k1, v1⟩ := hd
    have hk : k ≠ k1 := by intro he; exact h (by simp [alkeys, he])
    have htl : k ∉ alkeys tl := by
      intro hm; exact h (by simp [alkeys] at hm ⊢; exact Or.inr hm)
    simp [alget, hk, ih htl]

theorem alerase_append_found {α β : Type} [DecidableEq α] (l1 : List (α × β)) (k : α)
    (v : β) (l2 : List (α × β)) (h : k ∉ alkeys l1) :
    alerase (l1 ++ (k, v) :: l2) k = l1 ++ l2 := by
  induction l1 with
  | nil => simp [alerase]
  | cons hd tl ih =>
    obtain ⟨k1, v1⟩ := hd
    have hk : k ≠ k1 := by intro he; exact h (by simp [alkeys, he])
    have htl : k ∉ alkeys tl := by
      intro hm; exact h (by simp [alkeys] at hm ⊢; exact Or.inr hm)
    simp [alerase, hk, ih htl]

theorem getAclLoop_not_found (ent : String) (entries : List PyVal)
    (hwf : ∀ e ∈ entries, ∃ d, e = PyVal.dict d ∧
      ∃ s, alget d "entity" = some (PyVal.str s))
    (hne : ∀ e ∈ entries, aclEntityKey e ≠ ent) :
    getAclLoop ent entries = Except.ok Option.none := by
  induction entries with
  | nil => rfl
  | cons e tl ih =>
    obtain ⟨d, hd, s, hs⟩ := hwf e (by simp)
    subst hd
    have hkey : aclEntityKey (PyVal.dict d) = s := by simp [aclEntityKey, hs]
    have hsne : s ≠ ent := by
      have := hne (PyVal.dict d) (by simp)
      rwa [hkey] at this
    simp only [getAclLoop, algetD, hs, Option.getD_some, pyEq_str]
    rw [if_neg (by simp [hsne])]
    exact ih (fun e he => hwf e (by simp [he])) (fun e he => hne e (by simp [he]))

theorem getAclLoop_found (ent : String) (l1 : List PyVal) (e : PyVal) (l2 : List PyVal)
    (hwf : ∀ x ∈ l1, ∃ d, x = PyVal.dict d ∧
      ∃ s, alget d "entity" = some (PyVal.str s))
    (hne : ∀ x ∈ l1, aclEntityKey x ≠ ent)
    (d : List (String × PyVal)) (hd : e = PyVal.dict d)
    (hs : alget d "entity" = some (PyVal.str ent)) :
    getAclLoop ent (l1 ++ e :: l2) = Except.ok (some e) := by
  induction l1 with
  | nil =>
    subst hd
    simp only [List.nil_append, getAclLoop, algetD, hs, Option.getD_some, pyEq_str]
    rw [if_pos (by simp)]
  | cons x tl ih =>
    obtain ⟨dx, hdx, sx, hsx⟩ := hwf x (by simp)
    subst hdx
    have hkey : aclEntityKey (PyVal.dict dx) = sx := by simp [aclEntityKey, hsx]
    have hsne : sx ≠ ent := by
      have := hne (PyVal.dict dx) (by simp)
      rwa [hkey] at this
    simp only [List.cons_append, getAclLoop, algetD, hsx, Option.getD_some, pyEq_str]
    rw [if_neg (by simp [hsne])]
    exact ih (fun y hy => hwf y (by simp [hy])) (fun y hy => hne y (by simp [hy]))

/-- Claim C9, amended: for every Revision with a well-formed ACL list and
every entity, when no entry carries the canonical name `get_acl` fails with
the testbench's not-found `ErrorResponse` (constructor-default status 400,
not 404) and `delete_acl` fails with a bare `KeyError` (the metadata is not
reassigned on that path); when an entry with the canonical name exists
(uniquely), `get_acl` returns it and `delete_acl` removes exactly that
entry. -/
theorem claim_C9_theorem (env : Env) (r : Revision) (entity : String)
    (entries : List PyVal)
    (hacl : algetD r.metadata "acl" (PyVal.list []) = PyVal.list entries)
    (hwf : ∀ e ∈ entries, ∃ d, e = PyVal.dict d ∧
      ∃ s, alget d "entity" = some (PyVal.str s)) :
    ((∀ e ∈ entries, aclEntityKey e ≠ env.canonical_entity_name entity) →
      get_acl env r entity = Except.error (PyErr.errorResponse
        ("Entity " ++ env.canonical_entity_name entity ++ " not found in object " ++
          r.name) 400) ∧
      delete_acl env r entity = Except.error PyErr.keyError) ∧
    (∀ l1 e l2, entries = l1 ++ e :: l2 →
      aclEntityKey e = env.canonical_entity_name entity →
      (entries.map aclEntityKey).Nodup →
      get_acl env r entity = Except.ok e ∧
      delete_acl env r entity = Except.ok
        { r with metadata := alset r.metadata "acl" (PyVal.list (l1 ++ l2)) }) := by
  have hentries : aclEntries r.metadata = Except.ok entries := by
    unfold aclEntries
    rw [hacl]
  constructor
  · intro hne
    constructor
    · unfold get_acl
      simp only [bind, Except.bind, hentries, pure, Except.pure]
      rw [getAclLoop_not_found _ _ hwf hne]
      simp [throw, throwThe, MonadExceptOf.throw]
    · unfold delete_acl
      simp only [bind, Except.bind, hentries, pure, Except.pure]
      have hnone : alget (index_acl entries) (env.canonical_entity_name entity) =
          Option.none := by
        apply alget_eq_none_of_not_mem
        intro hmem
        obtain ⟨e, he, hkey⟩ := List.mem_map.mp (alkeys_index_acl_sub entries _ hmem)
        exact hne e he hkey
      simp [alpop, hnone, throw, throwThe, MonadExceptOf.throw]
  · intro l1 e l2 hsplit hkey hnd
    subst hsplit
    obtain ⟨d, hd, s, hs⟩ := hwf e (by simp)
    have hkeyd : aclEntityKey e = s := by rw [hd]; simp [aclEntityKey, hs]
    have hseq : s = env.canonical_entity_name entity := by rw [← hkeyd, hkey]
    have hsent : alget d "entity" = some (PyVal.str (env.canonical_entity_name entity)) := by
      rw [hs, hseq]
    have hndparts := List.nodup_append.mp (by simpa [List.map_append] using hnd)
    have hne1 : ∀ x ∈ l1, aclEntityKey x ≠ env.canonical_entity_name entity := by
      intro x hx hxk
      have hmem1 : env.canonical_entity_name entity ∈ l1.map aclEntityKey :=
        List.mem_map.mpr ⟨x, hx, hxk⟩
      have hmem2 : env.canonical_entity_name entity ∈ (e :: l2).map aclEntityKey := by
        simp [hkey]
      exact hndparts.2.2 hmem1 hmem2
    constructor
    · unfold get_acl
      simp only [bind, Except.bind, hentries, pure, Except.pure]
      rw [getAclLoop_found _ _ _ _ (fun x hx => hwf x (by simp [hx])) hne1 d hd hsent]
    · unfold delete_acl
      simp only [bind, Except.bind, hentries, pure, Except.pure]
      rw [index_acl_eq_map _ hnd]
      have hmapkeys : alkeys (List.map (fun x => (aclEntityKey x, x)) l1) =
          l1.map aclEntityKey := by
        simp [alkeys, List.map_map, Function.comp]
      have hl1 : env.canonical_entity_name entity ∉
          alkeys (List.map (fun x => (aclEntityKey x, x)) l1) := by
        rw [hmapkeys]
        intro hmem
        obtain ⟨x, hx, hxk⟩ := List.mem_map.mp hmem
        exact hne1 x hx hxk
      rw [List.map_append, List.map_cons, hkey]
      rw [show alpop (List.map (fun x => (aclEntityKey x, x)) l1 ++
            (env.canonical_entity_name entity, e) ::
              List.map (fun x => (aclEntityKey x, x)) l2)
            (env.canonical_entity_name entity) =
          some (e, List.map (fun x => (aclEntityKey x, x)) l1 ++
            List.map (fun x => (aclEntityKey x, x)) l2) from by
        unfold alpop
        rw [alget_append_found _ _ _ _ hl1, alerase_append_found _ _ _ _ hl1]]
      have hmapid : ∀ l : List PyVal,
          List.map (Prod.snd ∘ fun x => (aclEntityKey x, x)) l = l := by
        intro l
        induction l with
        | nil => rfl
        | cons a t ih => simp [ih, Function.comp]
      simp only [List.map_append, List.map_map, hmapid]

/-- Claim C9 witness: the amended claim at a concrete revision whose ACL
holds exactly one entry, for `user-a`. -/
theorem claim_C9_witness :
    ((∀ e ∈ [aclEntryA], aclEntityKey e ≠ envRefl.canonical_entity_name "user-a") →
      get_acl envRefl revC9 "user-a" = Except.error (PyErr.errorResponse
        ("Entity " ++ envRefl.canonical_entity_name "user-a" ++ " not found in object " ++
          revC9.name) 400) ∧
      delete_acl envRefl revC9 "user-a" = Except.error PyErr.keyError) ∧
    (∀ l1 e l2, [aclEntryA] = l1 ++ e :: l2 →
      aclEntityKey e = envRefl.canonical_entity_name "user-a" →
      (([aclEntryA] : List PyVal).map aclEntityKey).Nodup →
      get_acl envRefl revC9 "user-a" = Except.ok e ∧
      delete_acl envRefl revC9 "user-a" = Except.ok
        { revC9 with metadata := alset revC9.metadata "acl" (PyVal.list (l1 ++ l2)) }) :=
  claim_C9_theorem envRefl revC9 "user-a" [aclEntryA] rfl
    (by
      intro e he
      simp only [List.mem_singleton] at he
      subst he
      exact ⟨_, rfl, "user-a", rfl⟩)

/-- Claim C9 counterexample: as stated the claim says both lookups fail with
`NotFound` (HTTP 404); at this concrete input `get_acl` raises the
constructor-default 400 and `delete_acl` raises a bare `KeyError`, so
neither failure is a 404 `ErrorResponse`. -/
theorem claim_C9_counterexample :
    get_acl envRefl revC9 "user-x" = Except.error
      (PyErr.errorResponse "Entity user-x not found in object o" 400) ∧
    (¬ ∃ m, get_acl envRefl revC9 "user-x" = Except.error (PyErr.errorResponse m 404)) ∧
    delete_acl envRefl revC9 "user-x" = Except.error PyErr.keyError ∧
    (¬ ∃ m, delete_acl envRefl revC9 "user-x" =
      Except.error (PyErr.errorResponse m 404)) := by
  refine ⟨rfl, ?_, rfl, ?_⟩
  · rintro ⟨m, hm⟩
    rw [show get_acl envRefl revC9 "user-x" = Except.error
      (PyErr.errorResponse "Entity user-x not found in object o" 400) from rfl] at hm
    simp at hm
  · rintro ⟨m, hm⟩
    rw [show delete_acl envRefl revC9 "user-x" = Except.error PyErr.keyError from rfl] at hm
    simp at hm

theorem ufm_preserves_fields (env : Env) (ts : String) (r : Revision) (p : PyDict) :
    (update_from_metadata env ts r p).1.generation = r.generation ∧
    (update_from_metadata env ts r p).1.media = r.media := by
  simp only [update_from_metadata]
  cases hm : pyAddOne (algetD (ufm_tmp ts r p) "metageneration" (PyVal.int 0)) with
  | error e => exact ⟨rfl, rfl⟩
  | ok mg =>
    refine ⟨?_, ?_⟩ <;> dsimp only <;> split <;> rfl

/-- Claim C4: on an object whose containing bucket has versioning disabled,
every successful `insert` / `insert_multipart` / `insert_xml` leaves the
revisions mapping with exactly the one newly created revision, whose
generation (and the current-generation pointer) is exactly one greater than
the previous generation. -/
theorem claim_C4_theorem (env : Env) (ts : String) (o : GcsObject) (url : String)
    (req : Request) (o2 : GcsObject) (rev : Revision)
    (hv : (env.lookupBucket o.bucket_name).versioning = false)
    (h : GcsObject.insert env ts o url req = (o2, Except.ok rev) ∨
         GcsObject.insert_multipart env ts o url req = (o2, Except.ok rev) ∨
         GcsObject.insert_xml env ts o url req = (o2, Except.ok rev)) :
    ∃ g, o.generation = some g ∧ o2.generation = some (g + 1) ∧
      o2.revisions = [(g + 1, rev)] ∧ rev.generation = g + 1 := by
  rcases h with h | h | h
  · unfold GcsObject.insert at h
    cases hg : o.generation with
    | none => rw [hg] at h; simp [pyIncGen] at h
    | some g =>
      rw [hg] at h
      simp only [pyIncGen] at h
      cases hi : GcsObjectVersion.init env ts url o.bucket_name o.name (g + 1) req
          req.rawMedia with
      | error e => rw [hi] at h; simp at h
      | ok rev0 =>
        rw [hi] at h
        simp only [Prod.mk.injEq, Except.ok.injEq] at h
        obtain ⟨ho2, hrev⟩ := h
        subst hrev
        subst ho2
        have hfacts := init_metadata_facts env ts url o.bucket_name o.name (g + 1)
          req req.rawMedia rev0 hi
        refine ⟨g, rfl, ?_, ?_, ?_⟩
        · simp [GcsObject.insert_revision, hv]
        · simp [GcsObject.insert_revision, hv]
        · exact hfacts.2.2.2.2.2.1
  · unfold GcsObject.insert_multipart at h
    cases hmd : multipartDecode req with
    | error e => rw [hmd] at h; simp at h
    | ok dec =>
      obtain ⟨media_body, resource_body, media_headers⟩ := dec
      rw [hmd] at h
      try dsimp only at h
      cases hg : o.generation with
      | none => rw [hg] at h; simp [pyIncGen] at h
      | some g =>
        rw [hg] at h
        simp only [pyIncGen] at h
        cases hi : GcsObjectVersion.init env ts url o.bucket_name o.name (g + 1) req
            media_body with
        | error e => rw [hi] at h; simp at h
        | ok rev0 =>
          rw [hi] at h
          try dsimp only at h
          cases hj : env.parseJson resource_body with
          | error e => rw [hj] at h; simp at h
          | ok resource =>
            rw [hj] at h
            try dsimp only at h
            cases hu : update_from_metadata env ts
                (revSetMetaKey (revSetMetaKey rev0 "x_testbench_upload"
                  (PyVal.str "multipart")) "x_testbench_md5"
                  (algetD resource "md5Hash" (PyVal.str ""))) resource with
            | mk revU eU =>
              rw [hu] at h
              try dsimp only at h
              cases eU with
              | some e => simp at h
              | none =>
                try dsimp only at h
                cases hct : alget media_headers "content-type" with
                | none =>
                  rw [hct] at h
                  try dsimp only at h
                  simp only [Prod.mk.injEq, Except.ok.injEq] at h
                  obtain ⟨ho2, hrev⟩ := h
                  subst hrev
                  subst ho2
                  have hfacts := init_metadata_facts env ts url o.bucket_name o.name
                    (g + 1) req media_body rev0 hi
                  have hpres := ufm_preserves_fields env ts
                    (revSetMetaKey (revSetMetaKey rev0 "x_testbench_upload"
                      (PyVal.str "multipart")) "x_testbench_md5"
                      (algetD resource "md5Hash" (PyVal.str ""))) resource
                  rw [hu] at hpres
                  refine ⟨g, rfl, ?_, ?_, ?_⟩
                  · simp [GcsObject.insert_revision, hv]
                  · simp [GcsObject.insert_revision, hv]
                  · have hgeq : revU.generation = rev0.generation := hpres.1
                    rw [hgeq]
                    exact hfacts.2.2.2.2.2.1
                | some mct =>
                  rw [hct] at h
                  try dsimp only at h
                  cases hu2 : update_from_metadata env ts revU
                      [("contentType", PyVal.str mct)] with
                  | mk revV eV =>
                    rw [hu2] at h
                    try dsimp only at h
                    cases eV with
                    | some e => simp at h
                    | none =>
                      simp only [Prod.mk.injEq, Except.ok.injEq] at h
                      obtain ⟨ho2, hrev⟩ := h
                      subst hrev
                      subst ho2
                      have hfacts := init_metadata_facts env ts url o.bucket_name
                        o.name (g + 1) req media_body rev0 hi
                      have hpres := ufm_preserves_fields env ts
                        (revSetMetaKey (revSetMetaKey rev0 "x_testbench_upload"
                          (PyVal.str "multipart")) "x_testbench_md5"
                          (algetD resource "md5Hash" (PyVal.str ""))) resource
                      have hpres2 := ufm_preserves_fields env ts revU
                        [("contentType", PyVal.str mct)]
                      rw [hu] at hpres
                      rw [hu2] at hpres2
                      refine ⟨g, rfl, ?_, ?_, ?_⟩
                      · simp [GcsObject.insert_revision, hv]
                      · simp [GcsObject.insert_revision, hv]
                      · have hgeq : revV.generation = rev0.generation :=
                          hpres2.1.trans hpres.1
                        rw [hgeq]
                        exact hfacts.2.2.2.2.2.1
  · unfold GcsObject.insert_xml at h
    cases hg : o.generation with
    | none => rw [hg] at h; simp [pyIncGen] at h
    | some g =>
      rw [hg] at h
      simp only [pyIncGen] at h
      cases hi : GcsObjectVersion.init env ts url o.bucket_name o.name (g + 1) req
          req.rawMedia with
      | error e => rw [hi] at h; simp at h
      | ok rev0 =>
        rw [hi] at h
        try dsimp only at h
        have hfacts := init_metadata_facts env ts url o.bucket_name o.name (g + 1)
          req req.rawMedia rev0 hi
        cases hx : xmlMd5 (req.header "x-goog-hash") with
        | none =>
          rw [hx] at h
          try dsimp only at h
          simp only [Prod.mk.injEq, Except.ok.injEq] at h
          obtain ⟨ho2, hrev⟩ := h
          subst hrev
          subst ho2
          refine ⟨g, rfl, ?_, ?_, ?_⟩
          · simp [GcsObject.insert_revision, hv]
          · simp [GcsObject.insert_revision, hv]
          · exact hfacts.2.2.2.2.2.1
        | some hval =>
          rw [hx] at h
          try dsimp only at h
          cases hu : update_from_metadata env ts
              (revSetMetaKey (revSetMetaKey rev0 "x_testbench_upload" (PyVal.str "xml"))
                "x_testbench_md5" (PyVal.str hval)) [("md5Hash", PyVal.str hval)] with
          | mk revU eU =>
            rw [hu] at h
            try dsimp only at h
            cases eU with
            | some e => simp at h
            | none =>
              simp only [Prod.mk.injEq, Except.ok.injEq] at h
              obtain ⟨ho2, hrev⟩ := h
              subst hrev
              subst ho2
              have hpres := ufm_preserves_fields env ts
                (revSetMetaKey (revSetMetaKey rev0 "x_testbench_upload" (PyVal.str "xml"))
                  "x_testbench_md5" (PyVal.str hval)) [("md5Hash", PyVal.str hval)]
              rw [hu] at hpres
              refine ⟨g, rfl, ?_, ?_, ?_⟩
              · simp [GcsObject.insert_revision, hv]
              · simp [GcsObject.insert_revision, hv]
              · have hgeq : revU.generation = rev0.generation := hpres.1
                rw [hgeq]
                exact hfacts.2.2.2.2.2.1

/-- Claim C4 witness: a concrete successful `insert` on a fresh non-versioned
object yields generation 1 and a single-entry revisions mapping. -/
theorem claim_C4_witness :
    (envRefl.lookupBucket (GcsObject.mkNew "b" "o").bucket_name).versioning = false ∧
    ∃ g, (GcsObject.mkNew "b" "o").generation = some g ∧
      insC4.1.generation = some (g + 1) ∧
      insC4.1.revisions = [(g + 1, revOf insC4.2)] ∧
      (revOf insC4.2).generation = g + 1 :=
  ⟨rfl, claim_C4_theorem envRefl tsW (GcsObject.mkNew "b" "o") "u/" plainReq insC4.1
    (revOf insC4.2) rfl (Or.inl rfl)⟩

theorem ufm_tmp_get_id (ts : String) (r : Revision) (patch : PyDict) :
    alget (ufm_tmp ts r patch) "id" = some (PyVal.str r.object_id) := by
  unfold ufm_tmp
  exact alget_alupdate_first _ _ _ _
    (by simp only [alkeys, List.map_cons, List.map_nil]; decide)
    (by simp [alget])

theorem ufm_tmp_get_selfLink (ts : String) (r : Revision) (patch : PyDict) :
    alget (ufm_tmp ts r patch) "selfLink" =
      some (PyVal.str (r.gcs_url ++ r.name)) := by
  unfold ufm_tmp
  exact alget_alupdate_first _ _ _ _
    (by simp only [alkeys, List.map_cons, List.map_nil]; decide)
    (by simp [alget])

theorem initialMetadata_acl (env : Env) (ts : String) (g : Int)
    (req : Request) (media : Bytes) :
    alget (initialMetadata env ts g req media) "acl" = Option.none := by
  unfold initialMetadata
  cases hct : req.header "content-type" with
  | none => simp [alget]
  | some ct =>
    rw [alget_alset_ne _ _ _ _ (by decide)]
    simp [alget]

theorem ufm_nil_ok (env : Env) (ts : String) (r : Revision) (m : Int)
    (hmg : alget r.metadata "metageneration" = some (PyVal.int m))
    (hmd5 : alget r.metadata "md5Hash" = some (PyVal.str (env.md5b64 r.media))) :
    update_from_metadata env ts r [] =
      ({ r with metadata := alset (ufm_tmp ts r []) "metageneration" (PyVal.int (m + 1)) }, Option.none) := by
  have h1 : alget (ufm_tmp ts r []) "metageneration" = some (PyVal.int m) := by
    rw [ufm_tmp_nil_get _ _ _ (by decide)]; exact hmg
  have hmg2 : pyAddOne (algetD (ufm_tmp ts r []) "metageneration" (PyVal.int 0)) =
      Except.ok (PyVal.int (m + 1)) := by
    rw [algetD, h1]; rfl
  have h2 : alget (alset (ufm_tmp ts r []) "metageneration" (PyVal.int (m + 1)))
      "md5Hash" = some (PyVal.str (env.md5b64 r.media)) := by
    rw [alget_alset_ne _ _ _ _ (by decide), ufm_tmp_nil_get _ _ _ (by decide)]
    exact hmd5
  have h3 : pyEq (algetD (alset (ufm_tmp ts r []) "metageneration" (PyVal.int (m + 1)))
      "md5Hash" (PyVal.str "")) (PyVal.str (env.md5b64 r.media)) = true := by
    rw [algetD, h2]
    simp only [Option.getD_some]
    rw [pyEq_str]
    exact beq_self_eq_true _
  exact ufm_ok env ts r [] (PyVal.int (m + 1)) hmg2 h3

theorem insert_acl_ok (env : Env) (r : Revision) (e ro : String) (xs : List PyVal)
    (si ss : String)
    (hacl : algetD r.metadata "acl" (PyVal.list []) = PyVal.list xs)
    (hid : algetD r.metadata "id" (PyVal.str "") = PyVal.str si)
    (hsl : algetD r.metadata "selfLink" PyVal.none = PyVal.str ss) :
    ∃ ys out, insert_acl env r e ro = Except.ok out ∧
      out.1 = { r with metadata := alset r.metadata "acl" (PyVal.list ys) } := by
  unfold insert_acl aclEntries
  rw [hacl]
  simp only [bind, Except.bind, pure, Except.pure]
  rw [hid, hsl]
  exact ⟨_, _, rfl, rfl⟩

theorem update_predefined_acl_none_ok (env : Env) (r : Revision) (xs : List PyVal)
    (si ss : String)
    (hacl : algetD r.metadata "acl" (PyVal.list []) = PyVal.list xs)
    (hid : algetD r.metadata "id" (PyVal.str "") = PyVal.str si)
    (hsl : algetD r.metadata "selfLink" PyVal.none = PyVal.str ss) :
    ∃ r2, update_predefined_acl env r Option.none = Except.ok r2 := by
  obtain ⟨ys1, out1, h1, hshape1⟩ := insert_acl_ok env r
    (env.canonical_entity_name "project-owners-123456789") "OWNER" xs si ss hacl hid hsl
  obtain ⟨r1, e1⟩ := out1
  simp only at hshape1
  subst hshape1
  have hacl1 : algetD ({ r with metadata := alset r.metadata "acl" (PyVal.list ys1) } : Revision).metadata "acl" (PyVal.list []) = PyVal.list ys1 := by
    rw [algetD]
    simp only
    rw [alget_alset_self]
    rfl
  have hid1 : algetD ({ r with metadata := alset r.metadata "acl" (PyVal.list ys1) } : Revision).metadata "id" (PyVal.str "") = PyVal.str si := by
    rw [algetD]
    simp only
    rw [alget_alset_ne _ _ _ _ (by decide)]
    exact hid
  have hsl1 : algetD ({ r with metadata := alset r.metadata "acl" (PyVal.list ys1) } : Revision).metadata "selfLink" PyVal.none = PyVal.str ss := by
    rw [algetD]
    simp only
    rw [alget_alset_ne _ _ _ _ (by decide)]
    exact hsl
  obtain ⟨ys2, out2, h2, hshape2⟩ := insert_acl_ok env _
    (env.canonical_entity_name "project-editors-123456789") "OWNER" ys1 si ss hacl1 hid1 hsl1
  obtain ⟨r2, e2⟩ := out2
  simp only at hshape2
  subst hshape2
  have hacl2 : algetD ({ r with metadata := alset (alset r.metadata "acl" (PyVal.list ys1)) "acl" (PyVal.list ys2) } : Revision).metadata "acl" (PyVal.list []) = PyVal.list ys2 := by
    rw [algetD]
    simp only
    rw [alget_alset_self]
    rfl
  have hid2 : algetD ({ r with metadata := alset (alset r.metadata "acl" (PyVal.list ys1)) "acl" (PyVal.list ys2) } : Revision).metadata "id" (PyVal.str "") = PyVal.str si := by
    rw [algetD]
    simp only
    rw [alget_alset_ne _ _ _ _ (by decide), alget_alset_ne _ _ _ _ (by decide)]
    exact hid
  have hsl2 : algetD ({ r with metadata := alset (alset r.metadata "acl" (PyVal.list ys1)) "acl" (PyVal.list ys2) } : Revision).metadata "selfLink" PyVal.none = PyVal.str ss := by
    rw [algetD]
    simp only
    rw [alget_alset_ne _ _ _ _ (by decide), alget_alset_ne _ _ _ _ (by decide)]
    exact hsl
  obtain ⟨ys3, out3, h3, hshape3⟩ := insert_acl_ok env _
    (env.canonical_entity_name "project-viewers-123456789") "READER" ys2 si ss hacl2 hid2 hsl2
  obtain ⟨r3, e3⟩ := out3
  refine ⟨r3, ?_⟩
  unfold update_predefined_acl
  simp only [bind, Except.bind, pure, Except.pure]
  rw [h1]
  dsimp only [Option.getD]
  rw [if_neg (by decide), if_neg (by decide), if_neg (by decide), if_neg (by decide),
    if_pos rfl]
  rw [h2]
  dsimp only
  rw [h3]

theorem init_headerless_ok (env : Env) (ts url bn nm : String) (g : Int)
    (req : Request) (media : Bytes)
    (hh : req.headers = [])
    (hpa : req.arg "predefinedAcl" = Option.none) :
    ∃ rev, GcsObjectVersion.init env ts url bn nm g req media = Except.ok rev := by
  have hhdr : ∀ k, req.header k = Option.none := fun k => by
    rw [Request.header, hh]; rfl
  unfold GcsObjectVersion.init
  simp only [bind, Except.bind, pure, Except.pure]
  set media' := effMedia env req media with hmedia
  set r0 : Revision := ⟨url, bn, nm, g, bn ++ "/o/" ++ nm ++ "/" ++ pyReprInt g, media', initialMetadata env ts g req media'⟩ with hr0
  have hmgr0 : alget r0.metadata "metageneration" = some (PyVal.int 0) :=
    initialMetadata_metageneration env ts g req media'
  have hmd5r0 : alget r0.metadata "md5Hash" = some (PyVal.str (env.md5b64 r0.media)) :=
    initialMetadata_md5 env ts g req media'
  have hufm := ufm_nil_ok env ts r0 0 hmgr0 hmd5r0
  rw [hufm]
  dsimp only
  set r1 : Revision := { r0 with metadata := alset (ufm_tmp ts r0 []) "metageneration" (PyVal.int (0 + 1)) } with hr1
  have hcap : capture_customer_encryption env r1 req = Except.ok r1 := by
    unfold capture_customer_encryption
    rw [hhdr]
  rw [hcap]
  dsimp only
  rw [hpa]
  have hacl1 : algetD r1.metadata "acl" (PyVal.list []) = PyVal.list [] := by
    rw [algetD, hr1]
    dsimp only
    rw [alget_alset_ne _ _ _ _ (by decide), ufm_tmp_nil_get _ _ _ (by decide)]
    rw [hr0]
    dsimp only
    rw [initialMetadata_acl]
    rfl
  have hid1 : algetD r1.metadata "id" (PyVal.str "") = PyVal.str r0.object_id := by
    rw [algetD, hr1]
    dsimp only
    rw [alget_alset_ne _ _ _ _ (by decide), ufm_tmp_get_id]
    rfl
  have hsl1 : algetD r1.metadata "selfLink" PyVal.none =
      PyVal.str (r0.gcs_url ++ r0.name) := by
    rw [algetD, hr1]
    dsimp only
    rw [alget_alset_ne _ _ _ _ (by decide), ufm_tmp_get_selfLink]
    rfl
  obtain ⟨r2, hupd⟩ := update_predefined_acl_none_ok env r1 [] r0.object_id
    (r0.gcs_url ++ r0.name) hacl1 hid1 hsl1
  rw [hupd]
  dsimp only
  rw [hhdr]
  exact ⟨r2, rfl⟩

theorem check_preconditions_gen0_ok (o : GcsObject) (req : Request)
    (hgen : o.generation = some 0)
    (ha : ∀ k, k ≠ "rewriteToken" → req.arg k = Option.none) :
    GcsObject.check_preconditions o req = Except.ok () := by
  unfold GcsObject.check_preconditions
  rw [ha "ifGenerationMatch" (by decide), ha "ifGenerationNotMatch" (by decide),
    ha "ifMetagenerationMatch" (by decide), ha "ifMetagenerationNotMatch" (by decide)]
  simp only [parseOptIntArg, bind, Except.bind]
  unfold GcsObject.check_preconditions_by_value
  rw [hgen]
  simp [genIsZero, optFails, failIf]

theorem rewrite_finish_fresh_ok (env : Env) (ts url db dobj : String) (req : Request)
    (src : Revision)
    (hh : req.headers = [])
    (ha : ∀ k, k ≠ "rewriteToken" → req.arg k = Option.none) :
    ∃ dst rev, GcsObject.rewrite_finish env ts (GcsObject.mkNew db dobj) url req [] src =
      (dst, Except.ok rev) := by
  have hcp := check_preconditions_gen0_ok (GcsObject.mkNew db dobj) req rfl ha
  unfold GcsObject.rewrite_finish
  rw [hcp]
  dsimp only
  rw [show pyIncGen (GcsObject.mkNew db dobj).generation = Except.ok (0 + 1) from rfl]
  dsimp only [GcsObject.mkNew]
  obtain ⟨rev1, hinit⟩ := init_headerless_ok env ts url db dobj (0 + 1) req src.media
    hh (ha "predefinedAcl" (by decide))
  rw [hinit]
  dsimp only
  have hfacts := init_metadata_facts env ts url db dobj (0 + 1) req src.media rev1 hinit
  have hufm := ufm_nil_ok env ts rev1 1 hfacts.1
    (by rw [hfacts.2.2.1]; exact hfacts.2.1)
  rw [hufm]
  dsimp only
  exact ⟨_, _, rfl⟩

theorem rewrite_step_progress (env : Env) (ts : String) (o : GcsObject) (w : World)
    (url : String) (req : Request) (db dobj t : String) (op : RewriteOp)
    (rest : List (String × RewriteOp)) (src : Revision)
    (htok : req.arg "rewriteToken" = some t) (hne : t ≠ "")
    (hhdr : req.header ("x-goog-copy-source-encryption" ++ "-key") = Option.none)
    (hpop : alpop o.rewrite_operations t = some (op, rest))
    (hdiff : keySetDiffers (alkeys (capture_rewrite_operation_arguments req db dobj))
        (alkeys op.original_arguments) = false)
    (hsrc : lookupOptKey o.revisions op.actual_generation = some src)
    (hplain : algetD src.metadata "customerEncryption" PyVal.none = PyVal.none)
    (hlt : ¬ op.bytes_rewritten + 1048576 ≥ (src.media.length : Int)) :
    GcsObject.rewrite_step env ts o w url req db dobj =
      (({ o with rewrite_operations := alset rest (make_rewrite_token env { op with bytes_rewritten := op.bytes_rewritten + 1048576 } db dobj (some src.generation)) { op with bytes_rewritten := op.bytes_rewritten + 1048576 } }, w),
        Except.ok
          [ ("kind", PyVal.str "storage#rewriteResponse")
          , ("objectSize", PyVal.int (src.media.length : Int))
          , ("done", PyVal.bool false)
          , ("totalBytesRewritten", PyVal.int (op.bytes_rewritten + 1048576))
          , ("rewriteToken", PyVal.str (make_rewrite_token env
              { op with bytes_rewritten := op.bytes_rewritten + 1048576 } db dobj
              (some src.generation))) ]) := by
  unfold GcsObject.rewrite_step
  rw [htok]
  try dsimp only
  rw [if_pos hne, hpop]
  try dsimp only
  rw [hdiff]
  rw [if_neg (by decide)]
  simp only [GcsObject.get_revision_by_generation]
  try dsimp only
  rw [hsrc]
  try dsimp only
  unfold validate_encryption_for_read
  rw [hplain]
  try dsimp only
  rw [hhdr]
  try dsimp only
  rw [if_neg hlt]

theorem rewrite_step_first (env : Env) (ts : String) (o : GcsObject) (w : World)
    (url : String) (req : Request) (db dobj : String) (src : Revision) (g : Int)
    (htok : req.arg "rewriteToken" = Option.none)
    (hsg : req.arg "sourceGeneration" = Option.none)
    (hhdr : req.header ("x-goog-copy-source-encryption" ++ "-key") = Option.none)
    (hg : o.generation = some g)
    (hsrc : lookupOptKey o.revisions (some g) = some src)
    (hplain : algetD src.metadata "customerEncryption" PyVal.none = PyVal.none)
    (hlt : ¬ (0 : Int) + 1048576 ≥ (src.media.length : Int)) :
    GcsObject.rewrite_step env ts o w url req db dobj =
      (({ o with rewrite_token_generator := o.rewrite_token_generator + 1, rewrite_operations := alset o.rewrite_operations (make_rewrite_token env { id := o.rewrite_token_generator + 1, original_arguments := capture_rewrite_operation_arguments req db db, actual_generation := some g, bytes_rewritten := (0 : Int) + 1048576, body := req.jsonData } db dobj (some src.generation)) { id := o.rewrite_token_generator + 1, original_arguments := capture_rewrite_operation_arguments req db db, actual_generation := some g, bytes_rewritten := (0 : Int) + 1048576, body := req.jsonData } }, w),
        Except.ok
          [ ("kind", PyVal.str "storage#rewriteResponse")
          , ("objectSize", PyVal.int (src.media.length : Int))
          , ("done", PyVal.bool false)
          , ("totalBytesRewritten", PyVal.int ((0 : Int) + 1048576))
          , ("rewriteToken", PyVal.str (make_rewrite_token env { id := o.rewrite_token_generator + 1, original_arguments := capture_rewrite_operation_arguments req db db, actual_generation := some g, bytes_rewritten := (0 : Int) + 1048576, body := req.jsonData } db dobj (some src.generation))) ]) := by
  unfold GcsObject.rewrite_step
  rw [htok]
  try dsimp only
  unfold GcsObject.make_rewrite_operation
  simp only [bind, Except.bind, pure, Except.pure]
  rw [hsg]
  try dsimp only
  rw [hg]
  try dsimp only
  rw [capture_diff_always_empty]
  rw [if_neg (by decide)]
  simp only [GcsObject.get_revision_by_generation]
  try dsimp only
  rw [hsrc]
  try dsimp only
  unfold validate_encryption_for_read
  rw [hplain]
  try dsimp only
  rw [hhdr]
  try dsimp only
  rw [if_neg hlt]

theorem rewrite_step_done (env : Env) (ts : String) (o : GcsObject) (w : World)
    (url : String) (req : Request) (db dobj t : String) (op : RewriteOp)
    (rest : List (String × RewriteOp)) (src : Revision) (dst : GcsObject) (rev : Revision)
    (htok : req.arg "rewriteToken" = some t) (hne : t ≠ "")
    (hhdr : req.header ("x-goog-copy-source-encryption" ++ "-key") = Option.none)
    (hpop : alpop o.rewrite_operations t = some (op, rest))
    (hdiff : keySetDiffers (alkeys (capture_rewrite_operation_arguments req db dobj))
        (alkeys op.original_arguments) = false)
    (hsrc : lookupOptKey o.revisions op.actual_generation = some src)
    (hplain : algetD src.metadata "customerEncryption" PyVal.none = PyVal.none)
    (hge : op.bytes_rewritten + 1048576 ≥ (src.media.length : Int))
    (hfin : GcsObject.rewrite_finish env ts
        (get_object w db dobj (GcsObject.mkNew db dobj)).2 url req req.jsonData src =
        (dst, Except.ok rev)) :
    GcsObject.rewrite_step env ts o w url req db dobj =
      (({ o with rewrite_operations := rest },
        insert_object w (get_object w db dobj (GcsObject.mkNew db dobj)).1 dst),
        Except.ok
          [ ("kind", PyVal.str "storage#rewriteResponse")
          , ("objectSize", PyVal.int (src.media.length : Int))
          , ("done", PyVal.bool true)
          , ("resource", PyVal.dict rev.metadata)
          , ("totalBytesRewritten", PyVal.int (src.media.length : Int))
          , ("rewriteToken", PyVal.str "") ]) := by
  unfold GcsObject.rewrite_step
  rw [htok]
  try dsimp only
  rw [if_pos hne, hpop]
  try dsimp only
  rw [hdiff]
  rw [if_neg (by decide)]
  simp only [GcsObject.get_revision_by_generation]
  try dsimp only
  rw [hsrc]
  try dsimp only
  unfold validate_encryption_for_read
  rw [hplain]
  try dsimp only
  rw [hhdr]
  try dsimp only
  rw [if_pos hge]
  try dsimp only
  rw [hfin]

/-- Claim C8: a token presented to `rewrite_step` is popped from the
rewrite-operations table before any further processing: a token with no
entry (never issued or already consumed) fails with `Gone` (HTTP 410) and
mutates nothing, and after any call presenting a well-formed stored token
the resulting object's table no longer holds an entry for that token (the
fresh token issued on progress encodes a strictly larger byte count, so it
can never collide with the consumed one). -/
theorem claim_C8_theorem (env : Env) (ts : String) (o : GcsObject) (w : World)
    (url : String) (req : Request) (db dobj t : String)
    (htok : req.arg "rewriteToken" = some t) (hne : t ≠ "")
    (hinj : Function.Injective env.b64encode)
    (hkeys : (alkeys o.rewrite_operations).Nodup)
    (hwf : ∀ op, alget o.rewrite_operations t = some op →
        0 ≤ op.bytes_rewritten ∧
        ∃ db0 do0 gr0,
          t = env.b64encode (tokenPayload op.id db0 do0 gr0 op.bytes_rewritten)) :
    (alget o.rewrite_operations t = Option.none →
      GcsObject.rewrite_step env ts o w url req db dobj =
        ((o, w),
          Except.error (PyErr.errorResponse "Invalid or expired token in rewrite" 410))) ∧
    alget (GcsObject.rewrite_step env ts o w url req db dobj).1.1.rewrite_operations t =
      Option.none := by
  have hgone : alget o.rewrite_operations t = Option.none →
      GcsObject.rewrite_step env ts o w url req db dobj =
        ((o, w),
          Except.error (PyErr.errorResponse "Invalid or expired token in rewrite" 410)) := by
    intro hnone
    have hpop : alpop o.rewrite_operations t = Option.none := by
      unfold alpop
      rw [hnone]
    unfold GcsObject.rewrite_step
    rw [htok]
    try dsimp only
    rw [if_pos hne, hpop]
  refine ⟨hgone, ?_⟩
  cases halg : alget o.rewrite_operations t with
  | none =>
    rw [hgone halg]
    exact halg
  | some op =>
    have hpop : alpop o.rewrite_operations t =
        some (op, alerase o.rewrite_operations t) := by
      unfold alpop
      rw [halg]
    have herase : alget (alerase o.rewrite_operations t) t = Option.none :=
      alget_alerase_self_of_nodup _ _ hkeys
    have key : ∀ gen : Option Int,
        make_rewrite_token env
          { op with bytes_rewritten := op.bytes_rewritten + 1048576 } db dobj gen ≠ t := by
      intro gen heq
      obtain ⟨hbnn, db0, do0, gr0, henc⟩ := hwf op halg
      rw [henc] at heq
      unfold make_rewrite_token at heq
      dsimp only at heq
      have hpay := hinj heq
      have hb := tokenPayload_bytes_inj _ _ _ _ _ _ _ _ _ _ (by omega) hbnn hpay
      omega
    unfold GcsObject.rewrite_step
    rw [htok]
    try dsimp only
    rw [if_pos hne, hpop]
    try dsimp only
    split
    · exact herase
    · split
      · exact herase
      · split
        · exact herase
        · split
          · split
            · exact herase
            · exact herase
          · rw [alget_alset_ne _ _ _ _ (Ne.symm (key _))]
            exact herase

/-- Claim C8 witness: the concrete stored token `tokW` is popped by the call
that presents it, and an absent token is answered with the 410 error. -/
theorem claim_C8_witness :
    (alget oC8.rewrite_operations tokW = Option.none →
      GcsObject.rewrite_step envRefl tsW oC8 wEmpty "u/" (mkRewriteReq (some tokW) [])
          "b" "d" =
        ((oC8, wEmpty),
          Except.error (PyErr.errorResponse "Invalid or expired token in rewrite" 410))) ∧
    alget (GcsObject.rewrite_step envRefl tsW oC8 wEmpty "u/"
        (mkRewriteReq (some tokW) []) "b" "d").1.1.rewrite_operations tokW =
      Option.none :=
  claim_C8_theorem envRefl tsW oC8 wEmpty "u/" (mkRewriteReq (some tokW) []) "b" "d"
    tokW rfl (by decide) (fun a b h => h) (by decide)
    (by intro op h
        have h2 : some opW = some op :=
          (show alget oC8.rewrite_operations tokW = some opW from rfl).symm.trans h
        injection h2 with h3
        subst h3
        exact ⟨by decide, "b", "d", pyReprOptInt (some 1), rfl⟩)

/-- Claim C7: rewriting a 3 MiB source takes exactly three `rewrite_step`
calls (the tokenless initiating call, then two continuations with the
returned tokens): they report `totalBytesRewritten` 1048576, 2097152 and
3145728, `done` is false, false, true, and the returned `rewriteToken` is
non-empty on the first two calls and the empty string exactly on the final
call. -/
theorem claim_C7_theorem (env : Env) (ts1 ts2 ts3 : String) (o : GcsObject) (w : World)
    (url db dobj : String) (g : Int) (src : Revision)
    (hg : o.generation = some g)
    (hrev : o.revisions = [(g, src)])
    (hops : o.rewrite_operations = [])
    (hlen : src.media.length = 3145728)
    (hplain : algetD src.metadata "customerEncryption" PyVal.none = PyVal.none)
    (hb64 : ∀ s, s ≠ "" → env.b64encode s ≠ "")
    (hw : alget w.objects (object_path db dobj) = Option.none) :
    ∃ t1 t2 o1 o2 o3 w1 w2 w3 r1 r2 r3,
      GcsObject.rewrite_step env ts1 o w url (mkRewriteReq Option.none []) db dobj =
        ((o1, w1), Except.ok r1) ∧
      alget r1 "done" = some (PyVal.bool false) ∧
      alget r1 "totalBytesRewritten" = some (PyVal.int 1048576) ∧
      alget r1 "rewriteToken" = some (PyVal.str t1) ∧ t1 ≠ "" ∧
      GcsObject.rewrite_step env ts2 o1 w1 url (mkRewriteReq (some t1) []) db dobj =
        ((o2, w2), Except.ok r2) ∧
      alget r2 "done" = some (PyVal.bool false) ∧
      alget r2 "totalBytesRewritten" = some (PyVal.int 2097152) ∧
      alget r2 "rewriteToken" = some (PyVal.str t2) ∧ t2 ≠ "" ∧
      GcsObject.rewrite_step env ts3 o2 w2 url (mkRewriteReq (some t2) []) db dobj =
        ((o3, w3), Except.ok r3) ∧
      alget r3 "done" = some (PyVal.bool true) ∧
      alget r3 "totalBytesRewritten" = some (PyVal.int 3145728) ∧
      alget r3 "rewriteToken" = some (PyVal.str "") := by
  have hsrc1 : lookupOptKey o.revisions (some g) = some src := by
    rw [hrev]
    simp [lookupOptKey, alget]
  have hlt1 : ¬ (0 : Int) + 1048576 ≥ (src.media.length : Int) := by
    rw [hlen]
    decide
  set RW1 : RewriteOp := { id := o.rewrite_token_generator + 1, original_arguments := capture_rewrite_operation_arguments (mkRewriteReq Option.none []) db db, actual_generation := some g, bytes_rewritten := (0 : Int) + 1048576, body := (mkRewriteReq Option.none []).jsonData } with hRW1
  set T1 : String := make_rewrite_token env RW1 db dobj (some src.generation) with hT1
  set O1 : GcsObject := { o with rewrite_token_generator := o.rewrite_token_generator + 1, rewrite_operations := alset o.rewrite_operations T1 RW1 } with hO1
  set R1 : PyDict := [("kind", PyVal.str "storage#rewriteResponse"), ("objectSize", PyVal.int (src.media.length : Int)), ("done", PyVal.bool false), ("totalBytesRewritten", PyVal.int ((0 : Int) + 1048576)), ("rewriteToken", PyVal.str T1)] with hR1
  have hstep1 := rewrite_step_first env ts1 o w url (mkRewriteReq Option.none []) db dobj
    src g rfl rfl rfl hg hsrc1 hplain hlt1
  have hne1 : T1 ≠ "" := hb64 _ (tokenPayload_ne_empty _ _ _ _ _)
  set RW2 : RewriteOp := { RW1 with bytes_rewritten := RW1.bytes_rewritten + 1048576 } with hRW2
  set T2 : String := make_rewrite_token env RW2 db dobj (some src.generation) with hT2
  set O2 : GcsObject := { O1 with rewrite_operations := alset [] T2 RW2 } with hO2
  set R2 : PyDict := [("kind", PyVal.str "storage#rewriteResponse"), ("objectSize", PyVal.int (src.media.length : Int)), ("done", PyVal.bool false), ("totalBytesRewritten", PyVal.int (RW1.bytes_rewritten + 1048576)), ("rewriteToken", PyVal.str T2)] with hR2
  have hpop2 : alpop O1.rewrite_operations T1 = some (RW1, []) := by
    show alpop (alset o.rewrite_operations T1 RW1) T1 = some (RW1, [])
    rw [hops]
    simp [alpop, alget, alerase, alset]
  have hdiff2 : keySetDiffers
      (alkeys (capture_rewrite_operation_arguments (mkRewriteReq (some T1) []) db dobj))
      (alkeys RW1.original_arguments) = false :=
    capture_diff_always_empty _ _ _ _ _ _
  have hsrc2 : lookupOptKey O1.revisions RW1.actual_generation = some src := hsrc1
  have hlt2 : ¬ RW1.bytes_rewritten + 1048576 ≥ (src.media.length : Int) := by
    show ¬ ((0 : Int) + 1048576) + 1048576 ≥ (src.media.length : Int)
    rw [hlen]
    decide
  have hstep2 := rewrite_step_progress env ts2 O1 w url (mkRewriteReq (some T1) [])
    db dobj T1 RW1 [] src rfl hne1 rfl hpop2 hdiff2 hsrc2 hplain hlt2
  have hne2 : T2 ≠ "" := hb64 _ (tokenPayload_ne_empty _ _ _ _ _)
  have hpop3 : alpop O2.rewrite_operations T2 = some (RW2, []) := by
    show alpop (alset [] T2 RW2) T2 = some (RW2, [])
    simp [alpop, alget, alerase, alset]
  have hdiff3 : keySetDiffers
      (alkeys (capture_rewrite_operation_arguments (mkRewriteReq (some T2) []) db dobj))
      (alkeys RW2.original_arguments) = false :=
    capture_diff_always_empty _ _ _ _ _ _
  have hsrc3 : lookupOptKey O2.revisions RW2.actual_generation = some src := hsrc1
  have hge3 : RW2.bytes_rewritten + 1048576 ≥ (src.media.length : Int) := by
    show (((0 : Int) + 1048576) + 1048576) + 1048576 ≥ (src.media.length : Int)
    rw [hlen]
    decide
  have hgetobj : (get_object w db dobj (GcsObject.mkNew db dobj)).2 =
      GcsObject.mkNew db dobj := by
    simp [get_object, hw]
  obtain ⟨dst, rev, hfin0⟩ := rewrite_finish_fresh_ok env ts3 url db dobj
    (mkRewriteReq (some T2) []) src rfl
    (by intro k hk
        simp [mkRewriteReq, Request.arg, alget, hk])
  have hfin3 : GcsObject.rewrite_finish env ts3
      (get_object w db dobj (GcsObject.mkNew db dobj)).2 url (mkRewriteReq (some T2) [])
      (mkRewriteReq (some T2) []).jsonData src = (dst, Except.ok rev) := by
    rw [hgetobj]
    exact hfin0
  have hstep3 := rewrite_step_done env ts3 O2 w url (mkRewriteReq (some T2) []) db dobj
    T2 RW2 [] src dst rev rfl hne2 rfl hpop3 hdiff3 hsrc3 hplain hge3 hfin3
  have h13 : some (PyVal.int (src.media.length : Int)) = some (PyVal.int 3145728) := by
    rw [hlen]
    rfl
  exact ⟨T1, T2, O1, O2, { O2 with rewrite_operations := [] }, w, w,
    insert_object w (get_object w db dobj (GcsObject.mkNew db dobj)).1 dst, R1, R2,
    [("kind", PyVal.str "storage#rewriteResponse"), ("objectSize", PyVal.int (src.media.length : Int)), ("done", PyVal.bool true), ("resource", PyVal.dict rev.metadata), ("totalBytesRewritten", PyVal.int (src.media.length : Int)), ("rewriteToken", PyVal.str "")],
    hstep1, rfl, rfl, rfl, hne1, hstep2, rfl, rfl, rfl, hne2, hstep3, rfl, h13, rfl⟩

/-- Claim C7 witness: the concrete 3 MiB source object goes through the
1 MiB / 2 MiB / 3 MiB progression in exactly three calls. -/
theorem claim_C7_witness :
    ∃ t1 t2 o1 o2 o3 w1 w2 w3 r1 r2 r3,
      GcsObject.rewrite_step envRefl tsW oSrc3M wEmpty "u/" (mkRewriteReq Option.none [])
          "b" "d" = ((o1, w1), Except.ok r1) ∧
      alget r1 "done" = some (PyVal.bool false) ∧
      alget r1 "totalBytesRewritten" = some (PyVal.int 1048576) ∧
      alget r1 "rewriteToken" = some (PyVal.str t1) ∧ t1 ≠ "" ∧
      GcsObject.rewrite_step envRefl tsW o1 w1 "u/" (mkRewriteReq (some t1) []) "b" "d" =
        ((o2, w2), Except.ok r2) ∧
      alget r2 "done" = some (PyVal.bool false) ∧
      alget r2 "totalBytesRewritten" = some (PyVal.int 2097152) ∧
      alget r2 "rewriteToken" = some (PyVal.str t2) ∧ t2 ≠ "" ∧
      GcsObject.rewrite_step envRefl tsW o2 w2 "u/" (mkRewriteReq (some t2) []) "b" "d" =
        ((o3, w3), Except.ok r3) ∧
      alget r3 "done" = some (PyVal.bool true) ∧
      alget r3 "totalBytesRewritten" = some (PyVal.int 3145728) ∧
      alget r3 "rewriteToken" = some (PyVal.str "") :=
  claim_C7_theorem envRefl tsW tsW tsW oSrc3M wEmpty "u/" "b" "d" 1 srcRev3M
    rfl rfl rfl (by show media3M.length = 3145728; rw [media3M]; exact List.length_replicate _ _) rfl
    (fun s hs => hs) rfl

/-- Claim C1: contrary to the claim, a continuation `rewrite_step` call whose
fixed arguments carry different values does NOT fail with 412: the source
compares `set(current_arguments) ^ set(original_arguments)`, i.e. only the
dictionaries' key sets, and both dictionaries are built by
`capture_rewrite_operation_arguments` over the same fixed key list, so the
symmetric difference is empty for every pair of requests (first conjunct);
concretely, a rewrite started with `projection=full` and continued with the
returned token but `projection=noAcl` succeeds (second conjunct). -/
theorem claim_C1_theorem (env : Env) (ts1 ts2 : String) (o : GcsObject) (w : World)
    (url db dobj : String) (g : Int) (src : Revision)
    (hg : o.generation = some g)
    (hrev : o.revisions = [(g, src)])
    (hops : o.rewrite_operations = [])
    (hlen : src.media.length = 3145728)
    (hplain : algetD src.metadata "customerEncryption" PyVal.none = PyVal.none)
    (hb64 : ∀ s, s ≠ "" → env.b64encode s ≠ "") :
    (∀ (r1 r2 : Request) (a b c d : String),
        keySetDiffers (alkeys (capture_rewrite_operation_arguments r1 a b))
          (alkeys (capture_rewrite_operation_arguments r2 c d)) = false) ∧
    ∃ t1 o1 w1 r1 o2 w2 r2,
      (mkRewriteReq Option.none [("projection", "full")]).arg "projection" =
        some "full" ∧
      (mkRewriteReq (some t1) [("projection", "noAcl")]).arg "projection" =
        some "noAcl" ∧
      GcsObject.rewrite_step env ts1 o w url
          (mkRewriteReq Option.none [("projection", "full")]) db dobj =
        ((o1, w1), Except.ok r1) ∧
      alget r1 "rewriteToken" = some (PyVal.str t1) ∧ t1 ≠ "" ∧
      GcsObject.rewrite_step env ts2 o1 w1 url
          (mkRewriteReq (some t1) [("projection", "noAcl")]) db dobj =
        ((o2, w2), Except.ok r2) := by
  refine ⟨fun r1 r2 a b c d => capture_diff_always_empty r1 r2 a b c d, ?_⟩
  have hsrc1 : lookupOptKey o.revisions (some g) = some src := by
    rw [hrev]
    simp [lookupOptKey, alget]
  have hlt1 : ¬ (0 : Int) + 1048576 ≥ (src.media.length : Int) := by
    rw [hlen]
    decide
  set RW1 : RewriteOp := { id := o.rewrite_token_generator + 1, original_arguments := capture_rewrite_operation_arguments (mkRewriteReq Option.none [("projection", "full")]) db db, actual_generation := some g, bytes_rewritten := (0 : Int) + 1048576, body := (mkRewriteReq Option.none [("projection", "full")]).jsonData } with hRW1
  set T1 : String := make_rewrite_token env RW1 db dobj (some src.generation) with hT1
  set O1 : GcsObject := { o with rewrite_token_generator := o.rewrite_token_generator + 1, rewrite_operations := alset o.rewrite_operations T1 RW1 } with hO1
  set R1 : PyDict := [("kind", PyVal.str "storage#rewriteResponse"), ("objectSize", PyVal.int (src.media.length : Int)), ("done", PyVal.bool false), ("totalBytesRewritten", PyVal.int ((0 : Int) + 1048576)), ("rewriteToken", PyVal.str T1)] with hR1
  have hstep1 := rewrite_step_first env ts1 o w url
    (mkRewriteReq Option.none [("projection", "full")]) db dobj src g
    rfl rfl rfl hg hsrc1 hplain hlt1
  have hne1 : T1 ≠ "" := hb64 _ (tokenPayload_ne_empty _ _ _ _ _)
  have hpop2 : alpop O1.rewrite_operations T1 = some (RW1, []) := by
    show alpop (alset o.rewrite_operations T1 RW1) T1 = some (RW1, [])
    rw [hops]
    simp [alpop, alget, alerase, alset]
  have hdiff2 : keySetDiffers
      (alkeys (capture_rewrite_operation_arguments
        (mkRewriteReq (some T1) [("projection", "noAcl")]) db dobj))
      (alkeys RW1.original_arguments) = false :=
    capture_diff_always_empty _ _ _ _ _ _
  have hsrc2 : lookupOptKey O1.revisions RW1.actual_generation = some src := hsrc1
  have hlt2 : ¬ RW1.bytes_rewritten + 1048576 ≥ (src.media.length : Int) := by
    show ¬ ((0 : Int) + 1048576) + 1048576 ≥ (src.media.length : Int)
    rw [hlen]
    decide
  have hstep2 := rewrite_step_progress env ts2 O1 w url
    (mkRewriteReq (some T1) [("projection", "noAcl")]) db dobj T1 RW1 [] src
    rfl hne1 rfl hpop2 hdiff2 hsrc2 hplain hlt2
  exact ⟨T1, O1, w, R1, _, _, _, rfl, rfl, hstep1, rfl, hne1, hstep2⟩

/-- Claim C1 witness: the drifted-`projection` continuation on the concrete
3 MiB source succeeds instead of failing with 412. -/
theorem claim_C1_witness :
    (∀ (r1 r2 : Request) (a b c d : String),
        keySetDiffers (alkeys (capture_rewrite_operation_arguments r1 a b))
          (alkeys (capture_rewrite_operation_arguments r2 c d)) = false) ∧
    ∃ t1 o1 w1 r1 o2 w2 r2,
      (mkRewriteReq Option.none [("projection", "full")]).arg "projection" =
        some "full" ∧
      (mkRewriteReq (some t1) [("projection", "noAcl")]).arg "projection" =
        some "noAcl" ∧
      GcsObject.rewrite_step envRefl tsW oSrc3M wEmpty "u/"
          (mkRewriteReq Option.none [("projection", "full")]) "b" "d" =
        ((o1, w1), Except.ok r1) ∧
      alget r1 "rewriteToken" = some (PyVal.str t1) ∧ t1 ≠ "" ∧
      GcsObject.rewrite_step envRefl tsW o1 w1 "u/"
          (mkRewriteReq (some t1) [("projection", "noAcl")]) "b" "d" =
        ((o2, w2), Except.ok r2) :=
  claim_C1_theorem envRefl tsW tsW oSrc3M wEmpty "u/" "b" "d" 1 srcRev3M
    rfl rfl rfl (by show media3M.length = 3145728; rw [media3M]; exact List.length_replicate _ _) rfl
    (fun s hs => hs)
